import Mathlib

/-!
Shallow embedding of the parameter-store logic of `rclpy/rclpy/node.py`
(class `Node`: `declare_parameters`, `undeclare_parameter`, `get_parameter`,
`get_parameter_or`, `set_parameters`, `_set_parameters`,
`set_parameters_atomically`, `_set_parameters_atomically`), together with
proofs of the specification claims about that logic.

The mutable object state (`self._parameters`, the flag
`self._allow_undeclared_parameters`, the node name/namespace and clock) is
threaded explicitly as a `NodeState` value; the registered validation
callback (`self._parameters_callback`) is passed explicitly to each
operation.  Raising an exception is modelled by an `Except` result paired
with the state at the moment of the raise (Python exceptions do not roll
back prior mutations).  Publishing on the parameter-events publisher is
modelled by returning the list of published `ParameterEvent` messages.
-/

set_option autoImplicit false

/-- Modelled from the spec: the tag of a parameter value
(`rclpy.parameter.Parameter.Type`; `rclpy/parameter.py` is not among the
provided sources).  Spec section 3 lists exactly these variants. -/
inductive PType where
  | NOT_SET
  | BOOL
  | INTEGER
  | DOUBLE
  | STRING
  | BYTE_ARRAY
  | BOOL_ARRAY
  | INTEGER_ARRAY
  | DOUBLE_ARRAY
  | STRING_ARRAY
deriving DecidableEq

/-- Modelled from the spec: a parameter value is a union typed according to
the tag, absent when the tag is NOT_SET (spec section 3).  Doubles are
carried as uninterpreted IEEE-754 bit patterns (`Nat`); no claim computes
with them. -/
inductive ParamValue where
  | notSet
  | boolV (b : Bool)
  | intV (i : Int)
  | doubleV (bits : Nat)
  | stringV (s : String)
  | byteArr (bs : List Nat)
  | boolArr (bs : List Bool)
  | intArr (xs : List Int)
  | doubleArr (xs : List Nat)
  | stringArr (xs : List String)
deriving DecidableEq

/-- Tag of a value (the `type_` of a `Parameter` in `rclpy/parameter.py`). -/
def ParamValue.ptype : ParamValue → PType
  | .notSet => .NOT_SET
  | .boolV _ => .BOOL
  | .intV _ => .INTEGER
  | .doubleV _ => .DOUBLE
  | .stringV _ => .STRING
  | .byteArr _ => .BYTE_ARRAY
  | .boolArr _ => .BOOL_ARRAY
  | .intArr _ => .INTEGER_ARRAY
  | .doubleArr _ => .DOUBLE_ARRAY
  | .stringArr _ => .STRING_ARRAY

/-- Modelled from the spec: the only descriptor attribute the traced logic
reads is `read_only` (spec section 3; `rcl_interfaces` message defaults it
to false). -/
structure ParameterDescriptor where
  read_only : Bool := false
deriving DecidableEq

/-- Modelled from the spec: a parameter is a name, a typed value and a
descriptor (spec section 3; `rclpy/parameter.py` is not among the provided
sources, but `node.py` reads `.name`, `.type_`, `.value` and
`.descriptor`). -/
structure Parameter where
  name : String
  value : ParamValue
  descriptor : ParameterDescriptor
deriving DecidableEq

/-- The `type_` attribute of a parameter, derived from its tagged value. -/
def Parameter.type_ (p : Parameter) : PType := p.value.ptype

/-- Modelled from the spec: a `(name, typed value)` pair as it appears in
the event lists of a change-event message (`rcl_interfaces/msg/Parameter`,
produced by `Parameter.to_parameter_msg`). -/
structure ParameterMsg where
  name : String
  value : ParamValue
deriving DecidableEq

/-- Conversion used when appending to event lists
(`param.to_parameter_msg()` in `node.py`). -/
def Parameter.to_parameter_msg (p : Parameter) : ParameterMsg :=
  { name := p.name, value := p.value }

/-- Modelled from the spec: the result object of a set action
(`rcl_interfaces/msg/SetParametersResult`): a success flag plus a reason
string (spec section 6). -/
structure SetParametersResult where
  successful : Bool
  reason : String := ""
deriving DecidableEq

/-- Modelled from the spec: the change-event message
(`rcl_interfaces/msg/ParameterEvent`): node path, the three parameter
lists, and a timestamp (spec section 6).  The stamp is an abstract clock
reading. -/
structure ParameterEvent where
  node : String := ""
  new_parameters : List ParameterMsg := []
  changed_parameters : List ParameterMsg := []
  deleted_parameters : List ParameterMsg := []
  stamp : Nat := 0
deriving DecidableEq

/-- Exceptions raised by the parameter logic of `node.py`.  The
`alreadyDeclared` and `notDeclaredMany` payloads are `List Bool` because
`node.py` passes `list(gen)` where `gen` is a boolean generator already
partially consumed by `any(gen)` (lines 293-297 and 479-483). -/
inductive ParamError where
  | alreadyDeclared (leftover : List Bool)
  | notDeclaredName (name : String)
  | notDeclaredMany (leftover : List Bool)
  | immutable (name : String)
  | invalidParameterValue (name : String) (value : ParamValue)
  | invalidName (name : String) (error_msg : String) (invalid_index : Nat)
deriving DecidableEq

/-- The per-node state read and mutated by the parameter operations:
`self._parameters` (a dict, modelled as an association list with unique
keys), `self._allow_undeclared_parameters`, and — modelled from the spec
since `rclpy_get_node_name` / `rclpy_get_node_namespace` and the clock are
native calls — the node name, node namespace and current clock reading. -/
structure NodeState where
  _parameters : List (String × Parameter)
  _allow_undeclared_parameters : Bool
  node_name : String
  node_namespace : String
  clock_now : Nat
deriving DecidableEq

/-- The registered validation callback: full candidate batch in, result
object out (spec section 6). -/
abbrev Callback := List Parameter → SetParametersResult

/-- Dictionary read: `d[k]` / `k in d` / `d.get(k, alt)` are expressed via
this first-match lookup. -/
def dictLookup : List (String × Parameter) → String → Option Parameter
  | [], _ => none
  | (k, v) :: rest, k' => if k = k' then some v else dictLookup rest k'

/-- Dictionary write `d[k] = v`: overwrite the existing entry in place, or
append a fresh one. -/
def dictSet : List (String × Parameter) → String → Parameter → List (String × Parameter)
  | [], k, v => [(k, v)]
  | (k', v') :: rest, k, v =>
    if k' = k then (k', v) :: rest else (k', v') :: dictSet rest k v

/-- Dictionary delete `del d[k]`: remove the (unique) entry with that
key. -/
def dictErase : List (String × Parameter) → String → List (String × Parameter)
  | [], _ => []
  | (k', v') :: rest, k =>
    if k' = k then rest else (k', v') :: dictErase rest k

/-- Semantics of Python's `any(gen)` followed by `list(gen)` on the same
generator: `any` consumes elements up to and including the first `true`;
`list` then collects exactly the remaining elements. -/
def anyThenList : List Bool → Bool × List Bool
  | [] => (false, [])
  | b :: rest => if b then (true, rest) else anyThenList rest

instance exceptDecEq {ε α : Type} [DecidableEq ε] [DecidableEq α] :
    DecidableEq (Except ε α) := fun x y =>
  match x, y with
  | .ok a, .ok b =>
    if h : a = b then isTrue (by rw [h]) else isFalse (fun hh => by cases hh; exact h rfl)
  | .error a, .error b =>
    if h : a = b then isTrue (by rw [h]) else isFalse (fun hh => by cases hh; exact h rfl)
  | .ok _, .error _ => isFalse (fun hh => by cases hh)
  | .error _, .ok _ => isFalse (fun hh => by cases hh)

/-- Outcome of a mutating node operation: the returned value or raised
exception, the object state after the call (mutations preceding a raise
persist), and the `ParameterEvent` messages published during the call. -/
structure Outcome (α : Type) where
  res : Except ParamError α
  state : NodeState
  events : List ParameterEvent
deriving DecidableEq

/-- `Node.has_parameter` (node.py lines 323-325). -/
def NodeState.has_parameter (s : NodeState) (name : String) : Bool :=
  (dictLookup s._parameters name).isSome

/-- `Node.get_parameter` (node.py lines 342-358). -/
def NodeState.get_parameter (s : NodeState) (name : String) : Except ParamError Parameter :=
  match dictLookup s._parameters name with
  | some p => .ok p
  | none =>
    if s._allow_undeclared_parameters then
      .ok { name := name, value := ParamValue.notSet, descriptor := {} }
    else
      .error (.notDeclaredName name)

/-- `Node.get_parameters` (node.py lines 327-340); the list comprehension
raises at the first failing name. -/
def NodeState.get_parameters (s : NodeState) : List String → Except ParamError (List Parameter)
  | [] => .ok []
  | n :: rest =>
    match s.get_parameter n with
    | .error e => .error e
    | .ok p =>
      match s.get_parameters rest with
      | .error e => .error e
      | .ok ps => .ok (p :: ps)

/-- `Node.get_parameter_or` with the default alternative
(node.py lines 360-375): the stored parameter, else a synthetic NOT_SET
parameter with that name. -/
def NodeState.get_parameter_or (s : NodeState) (name : String) : Parameter :=
  match dictLookup s._parameters name with
  | some p => p
  | none => { name := name, value := ParamValue.notSet, descriptor := {} }

/-- `Node.undeclare_parameter` (node.py lines 304-321).  The state
component of the pair is the object state when the call returns or the
exception propagates. -/
def NodeState.undeclare_parameter (s : NodeState) (name : String) :
    Except ParamError Unit × NodeState :=
  match dictLookup s._parameters name with
  | some p =>
    if p.descriptor.read_only then
      (.error (.immutable name), s)
    else
      (.ok (), { s with _parameters := dictErase s._parameters name })
  | none => (.error (.notDeclaredName name), s)

/-- Result synthesis of node.py lines 507-511: call the registered
callback with the full list, or make a trivially successful result. -/
def callbackResult (cb : Option Callback) (parameter_list : List Parameter) :
    SetParametersResult :=
  match cb with
  | some f => f parameter_list
  | none => { successful := true, reason := "" }

/-- Fully qualified node path attached to a change event
(node.py lines 516-519). -/
def NodeState.fullyQualifiedPath (s : NodeState) : String :=
  if s.node_namespace = "/" then
    s.node_namespace ++ s.node_name
  else
    s.node_namespace ++ "/" ++ s.node_name

/-- The classification/mutation loop of `_set_parameters_atomically`
(node.py lines 520-538): for each parameter in order, a NOT_SET value
records a deletion when the current value is set, and removes the name;
any other value records the parameter as new or changed depending on the
current value, and stores it. -/
def setAtomLoop : List Parameter → NodeState → ParameterEvent → NodeState × ParameterEvent
  | [], s, ev => (s, ev)
  | param :: rest, s, ev =>
    if param.type_ = PType.NOT_SET then
      let ev' :=
        if (s.get_parameter_or param.name).type_ ≠ PType.NOT_SET then
          { ev with deleted_parameters := ev.deleted_parameters ++ [param.to_parameter_msg] }
        else ev
      let s' :=
        if s.has_parameter param.name then
          { s with _parameters := dictErase s._parameters param.name }
        else s
      setAtomLoop rest s' ev'
    else
      let ev' :=
        if (s.get_parameter_or param.name).type_ = PType.NOT_SET then
          { ev with new_parameters := ev.new_parameters ++ [param.to_parameter_msg] }
        else
          { ev with changed_parameters := ev.changed_parameters ++ [param.to_parameter_msg] }
      let s' := { s with _parameters := dictSet s._parameters param.name param }
      setAtomLoop rest s' ev'

/-- Plain classification-and-publish output of the atomic-set primitive,
which never raises. -/
structure SetOut where
  result : SetParametersResult
  state : NodeState
  events : List ParameterEvent
deriving DecidableEq

/-- `Node._set_parameters_atomically` (node.py lines 487-542): consult the
callback once for the whole batch; on success run the
classification/mutation loop and publish exactly one event stamped with
the current clock reading and addressed to the fully qualified node path;
on failure mutate nothing and publish nothing, returning the callback's
result as-is. -/
def NodeState._set_parameters_atomically (s : NodeState) (cb : Option Callback)
    (parameter_list : List Parameter) : SetOut :=
  let result := callbackResult cb parameter_list
  if result.successful then
    let ev0 : ParameterEvent := { node := s.fullyQualifiedPath }
    let r := setAtomLoop parameter_list s ev0
    { result := result
      state := r.1
      events := [{ r.2 with stamp := r.1.clock_now }] }
  else
    { result := result, state := s, events := [] }

/-- `Node.set_parameters_atomically` (node.py lines 448-485): raise
NotDeclared when undeclared parameters are disallowed and some name of the
batch is not stored (the exception payload reproduces the partially
consumed generator of lines 479-483), else delegate to the unchecked
primitive.  The `isinstance` check of line 476 is enforced by typing. -/
def NodeState.set_parameters_atomically (s : NodeState) (cb : Option Callback)
    (parameter_list : List Parameter) : Outcome SetParametersResult :=
  let undeclared := parameter_list.map (fun p => !s.has_parameter p.name)
  let ar := anyThenList undeclared
  if !s._allow_undeclared_parameters && ar.1 then
    { res := .error (.notDeclaredMany ar.2), state := s, events := [] }
  else
    let o := s._set_parameters_atomically cb parameter_list
    { res := .ok o.result, state := o.state, events := o.events }

/-- The two setter methods bound to `setter_func` in `_set_parameters`:
`_set_parameters_atomically` (declaration path, no declared-check) and
`set_parameters_atomically` (public set path, declared-check). -/
inductive SetterKind where
  | unchecked
  | checked
deriving DecidableEq

/-- Application of the selected setter to a single-element batch. -/
def applySetter (k : SetterKind) (s : NodeState) (cb : Option Callback)
    (pl : List Parameter) : Outcome SetParametersResult :=
  match k with
  | .unchecked =>
    let o := s._set_parameters_atomically cb pl
    { res := .ok o.result, state := o.state, events := o.events }
  | .checked => s.set_parameters_atomically cb pl

/-- The loop of `Node._set_parameters` (node.py lines 409-446): apply the
setter once per parameter, in order; with `raise_on_failure` an
unsuccessful result raises `InvalidParameterValueException(param.name,
param.value)`; results collected so far are lost when an exception
propagates, but prior mutations and published events persist. -/
def _set_parameters_go (k : SetterKind) (raise_on_failure : Bool) (cb : Option Callback) :
    List Parameter → NodeState → Outcome (List SetParametersResult)
  | [], s => { res := .ok [], state := s, events := [] }
  | param :: rest, s =>
    let o := applySetter k s cb [param]
    match o.res with
    | .error e => { res := .error e, state := o.state, events := o.events }
    | .ok result =>
      if raise_on_failure && !result.successful then
        { res := .error (.invalidParameterValue param.name param.value)
          state := o.state
          events := o.events }
      else
        let o2 := _set_parameters_go k raise_on_failure cb rest o.state
        { res := o2.res.map (fun rs => result :: rs)
          state := o2.state
          events := o.events ++ o2.events }

/-- `Node.set_parameters` (node.py lines 377-407):
`self._set_parameters(parameter_list, self.set_parameters_atomically)`
with `raise_on_failure` left false. -/
def NodeState.set_parameters (s : NodeState) (cb : Option Callback)
    (parameter_list : List Parameter) : Outcome (List SetParametersResult) :=
  _set_parameters_go SetterKind.checked false cb parameter_list s

/-- Construction of one entry of `parameter_list` in `declare_parameters`
(node.py lines 287-291): prefix the namespace, keep value and
descriptor. -/
def buildOne (ns : String) (t : String × ParamValue × ParameterDescriptor) : Parameter :=
  { name := ns ++ t.1, value := t.2.1, descriptor := t.2.2 }

/-- The name-validation-and-construction loop of `declare_parameters`
(node.py lines 277-291).  The external native validator is abstracted as
`validate`, returning `none` for a valid name and `some (error_msg,
invalid_index)` otherwise, exactly the interface of
`validate_parameter_name` in `rclpy/validate_parameter_name.py`. -/
def buildParameterList (validate : String → Option (String × Nat)) (ns : String) :
    List (String × ParamValue × ParameterDescriptor) → Except ParamError (List Parameter)
  | [] => .ok []
  | t :: rest =>
    match validate (ns ++ t.1) with
    | some err => .error (.invalidName (ns ++ t.1) err.1 err.2)
    | none =>
      match buildParameterList validate ns rest with
      | .error e => .error e
      | .ok ps => .ok (buildOne ns t :: ps)

/-- `Node.declare_parameters` (node.py lines 256-302): build and validate
the full parameter list; raise AlreadyDeclared when any resulting name is
already stored (the payload reproduces the partially consumed generator of
lines 293-297); apply the unchecked per-parameter set loop with
`raise_on_failure=True`; finally re-read and return the stored values. -/
def NodeState.declare_parameters (s : NodeState) (cb : Option Callback)
    (validate : String → Option (String × Nat)) (ns : String)
    (parameters : List (String × ParamValue × ParameterDescriptor)) :
    Outcome (List Parameter) :=
  match buildParameterList validate ns parameters with
  | .error e => { res := .error e, state := s, events := [] }
  | .ok parameter_list =>
    let checks := parameter_list.map (fun p => s.has_parameter p.name)
    let ar := anyThenList checks
    if ar.1 then
      { res := .error (.alreadyDeclared ar.2), state := s, events := [] }
    else
      let o := _set_parameters_go SetterKind.unchecked true cb parameter_list s
      match o.res with
      | .error e => { res := .error e, state := o.state, events := o.events }
      | .ok _ =>
        match o.state.get_parameters (parameter_list.map Parameter.name) with
        | .error e => { res := .error e, state := o.state, events := o.events }
        | .ok ps => { res := .ok ps, state := o.state, events := o.events }

/-- Every stored entry of the dictionary carries a parameter whose type is
not NOT_SET: the store invariant of spec section 3. -/
def ParamsNoUnset (d : List (String × Parameter)) : Prop :=
  ∀ pr ∈ d, pr.2.type_ ≠ PType.NOT_SET

/-- Well-formedness of a store dictionary: unique keys (a Python dict
cannot hold a key twice) together with the NOT_SET invariant. -/
def StoreWF (d : List (String × Parameter)) : Prop :=
  (d.map Prod.fst).Nodup ∧ ParamsNoUnset d

instance (d : List (String × Parameter)) : Decidable (ParamsNoUnset d) := by
  unfold ParamsNoUnset; infer_instance

instance (d : List (String × Parameter)) : Decidable (StoreWF d) := by
  unfold StoreWF; infer_instance

theorem dictLookup_mem {d : List (String × Parameter)} {k : String} {v : Parameter}
    (h : dictLookup d k = some v) : (k, v) ∈ d := by
  induction d with
  | nil => simp [dictLookup] at h
  | cons kv rest ih =>
    obtain ⟨a, b⟩ := kv
    simp only [dictLookup] at h
    by_cases hk : a = k
    · rw [if_pos hk] at h
      injection h with h
      subst hk; subst h
      exact List.mem_cons_self _ _
    · rw [if_neg hk] at h
      exact List.mem_cons_of_mem _ (ih h)

theorem dictLookup_eq_none_of_not_mem {d : List (String × Parameter)} {k : String}
    (h : k ∉ d.map Prod.fst) : dictLookup d k = none := by
  induction d with
  | nil => rfl
  | cons kv rest ih =>
    obtain ⟨a, b⟩ := kv
    simp only [List.map_cons, List.mem_cons] at h
    push_neg at h
    have hak : ¬ a = k := fun hh => h.1 hh.symm
    simp only [dictLookup, if_neg hak]
    exact ih h.2

theorem dictLookup_dictSet (d : List (String × Parameter)) (k : String) (v : Parameter)
    (k' : String) :
    dictLookup (dictSet d k v) k' = if k = k' then some v else dictLookup d k' := by
  induction d with
  | nil => simp [dictSet, dictLookup]
  | cons kv rest ih =>
    obtain ⟨a, b⟩ := kv
    by_cases hak : a = k
    · subst hak
      simp only [dictSet, if_pos rfl, dictLookup]
      by_cases hk' : a = k'
      · simp [hk']
      · simp [hk']
    · simp only [dictSet, if_neg hak, dictLookup, ih]
      by_cases hk' : a = k'
      · subst hk'
        have hkk : ¬ k = a := fun hh => hak hh.symm
        simp [hkk]
      · simp [hk']

theorem dictLookup_dictErase_ne {d : List (String × Parameter)} {k k' : String}
    (h : k ≠ k') : dictLookup (dictErase d k) k' = dictLookup d k' := by
  induction d with
  | nil => rfl
  | cons kv rest ih =>
    obtain ⟨a, b⟩ := kv
    by_cases hak : a = k
    · subst hak
      simp [dictErase, dictLookup, h]
    · simp only [dictErase, if_neg hak, dictLookup]
      by_cases hk' : a = k'
      · simp [hk']
      · simp [hk', ih]

theorem keys_dictErase_sublist (d : List (String × Parameter)) (k : String) :
    ((dictErase d k).map Prod.fst).Sublist (d.map Prod.fst) := by
  induction d with
  | nil => simp [dictErase]
  | cons kv rest ih =>
    obtain ⟨a, b⟩ := kv
    simp only [dictErase]
    by_cases hak : a = k
    · rw [if_pos hak]
      exact List.sublist_cons_self _ _
    · rw [if_neg hak]
      simpa using ih.cons₂ a

theorem dictLookup_dictErase_self {d : List (String × Parameter)} {k : String}
    (h : (d.map Prod.fst).Nodup) : dictLookup (dictErase d k) k = none := by
  induction d with
  | nil => rfl
  | cons kv rest ih =>
    obtain ⟨a, b⟩ := kv
    simp only [List.map_cons, List.nodup_cons] at h
    simp only [dictErase]
    by_cases hak : a = k
    · rw [if_pos hak]
      subst hak
      exact dictLookup_eq_none_of_not_mem h.1
    · rw [if_neg hak]
      simp only [dictLookup, if_neg hak]
      exact ih h.2

theorem mem_keys_dictSet {d : List (String × Parameter)} {k : String} {v : Parameter}
    {k' : String} (h : k' ∈ (dictSet d k v).map Prod.fst) :
    k' ∈ d.map Prod.fst ∨ k' = k := by
  induction d with
  | nil => simpa [dictSet] using h
  | cons kv rest ih =>
    obtain ⟨a, b⟩ := kv
    simp only [dictSet] at h
    by_cases hak : a = k
    · rw [if_pos hak] at h
      simp only [List.map_cons, List.mem_cons] at h ⊢
      tauto
    · rw [if_neg hak] at h
      simp only [List.map_cons, List.mem_cons] at h ⊢
      rcases h with h | h
      · exact Or.inl (Or.inl h)
      · rcases ih h with h | h
        · exact Or.inl (Or.inr h)
        · exact Or.inr h

theorem keysNodup_dictSet {d : List (String × Parameter)} {k : String} {v : Parameter}
    (h : (d.map Prod.fst).Nodup) : ((dictSet d k v).map Prod.fst).Nodup := by
  induction d with
  | nil => simp [dictSet]
  | cons kv rest ih =>
    obtain ⟨a, b⟩ := kv
    simp only [List.map_cons, List.nodup_cons] at h
    simp only [dictSet]
    by_cases hak : a = k
    · rw [if_pos hak]
      simpa [List.nodup_cons] using h
    · rw [if_neg hak]
      simp only [List.map_cons, List.nodup_cons]
      refine ⟨fun hmem => ?_, ih h.2⟩
      rcases mem_keys_dictSet hmem with hm | hm
      · exact h.1 hm
      · exact hak hm

theorem keysNodup_dictErase {d : List (String × Parameter)} {k : String}
    (h : (d.map Prod.fst).Nodup) : ((dictErase d k).map Prod.fst).Nodup :=
  (keys_dictErase_sublist d k).nodup h

theorem mem_dictErase {d : List (String × Parameter)} {k : String}
    {pr : String × Parameter} (h : pr ∈ dictErase d k) : pr ∈ d := by
  induction d with
  | nil => simp [dictErase] at h
  | cons kv rest ih =>
    obtain ⟨a, b⟩ := kv
    simp only [dictErase] at h
    by_cases hak : a = k
    · rw [if_pos hak] at h
      exact List.mem_cons_of_mem _ h
    · rw [if_neg hak] at h
      rcases List.mem_cons.1 h with h | h
      · exact h ▸ List.mem_cons_self _ _
      · exact List.mem_cons_of_mem _ (ih h)

theorem mem_dictSet {d : List (String × Parameter)} {k : String} {v : Parameter}
    {pr : String × Parameter} (h : pr ∈ dictSet d k v) : pr = (k, v) ∨ pr ∈ d := by
  induction d with
  | nil => simpa [dictSet] using h
  | cons kv rest ih =>
    obtain ⟨a, b⟩ := kv
    simp only [dictSet] at h
    by_cases hak : a = k
    · rw [if_pos hak] at h
      subst hak
      rcases List.mem_cons.1 h with h | h
      · exact Or.inl h
      · exact Or.inr (List.mem_cons_of_mem _ h)
    · rw [if_neg hak] at h
      rcases List.mem_cons.1 h with h | h
      · exact Or.inr (h ▸ List.mem_cons_self _ _)
      · rcases ih h with h | h
        · exact Or.inl h
        · exact Or.inr (List.mem_cons_of_mem _ h)

theorem setAtomLoop_config (pl : List Parameter) :
    ∀ (s : NodeState) (ev : ParameterEvent),
      (setAtomLoop pl s ev).1.node_name = s.node_name ∧
      (setAtomLoop pl s ev).1.node_namespace = s.node_namespace ∧
      (setAtomLoop pl s ev).1.clock_now = s.clock_now ∧
      (setAtomLoop pl s ev).1._allow_undeclared_parameters = s._allow_undeclared_parameters := by
  induction pl with
  | nil => intro s ev; exact ⟨rfl, rfl, rfl, rfl⟩
  | cons p rest ih =>
    intro s ev
    simp only [setAtomLoop]
    split
    · split <;> split <;> exact ih _ _
    · split <;> exact ih _ _

theorem setAtomLoop_entries (pl : List Parameter) :
    ∀ (s : NodeState) (ev : ParameterEvent) (pr : String × Parameter),
      pr ∈ (setAtomLoop pl s ev).1._parameters →
      pr ∈ s._parameters ∨ (pr.2 ∈ pl ∧ pr.2.type_ ≠ PType.NOT_SET) := by
  induction pl with
  | nil => intro s ev pr h; exact Or.inl h
  | cons p rest ih =>
    intro s ev pr h
    simp only [setAtomLoop] at h
    by_cases h1 : p.type_ = PType.NOT_SET
    · rw [if_pos h1] at h
      have h' := h
      rcases ih _ _ _ h' with hm | hm
      · split at hm
        · exact Or.inl (mem_dictErase hm)
        · exact Or.inl hm
      · exact Or.inr ⟨List.mem_cons_of_mem _ hm.1, hm.2⟩
    · rw [if_neg h1] at h
      rcases ih _ _ _ h with hm | hm
      · rcases mem_dictSet hm with hm' | hm'
        · have hp2 : pr.2 = p := congrArg Prod.snd hm'
          refine Or.inr ⟨?_, ?_⟩
          · rw [hp2]; exact List.mem_cons_self _ _
          · rw [hp2]; exact h1
        · exact Or.inl hm'
      · exact Or.inr ⟨List.mem_cons_of_mem _ hm.1, hm.2⟩

theorem setAtomLoop_noUnset (pl : List Parameter) (s : NodeState) (ev : ParameterEvent)
    (h : ParamsNoUnset s._parameters) :
    ParamsNoUnset (setAtomLoop pl s ev).1._parameters := by
  intro pr hpr
  rcases setAtomLoop_entries pl s ev pr hpr with hm | hm
  · exact h pr hm
  · exact hm.2

theorem setAtomLoop_keysNodup (pl : List Parameter) :
    ∀ (s : NodeState) (ev : ParameterEvent),
      (s._parameters.map Prod.fst).Nodup →
      ((setAtomLoop pl s ev).1._parameters.map Prod.fst).Nodup := by
  induction pl with
  | nil => intro s ev h; exact h
  | cons p rest ih =>
    intro s ev h
    simp only [setAtomLoop]
    split
    · split <;> split <;>
        first
          | exact ih _ _ (keysNodup_dictErase h)
          | exact ih _ _ h
    · split <;> exact ih _ _ (keysNodup_dictSet h)

theorem setAtomLoop_storeWF (pl : List Parameter) (s : NodeState) (ev : ParameterEvent)
    (h : StoreWF s._parameters) : StoreWF (setAtomLoop pl s ev).1._parameters :=
  ⟨setAtomLoop_keysNodup pl s ev h.1, setAtomLoop_noUnset pl s ev h.2⟩

theorem setAtomLoop_lookup_untouched (pl : List Parameter) :
    ∀ (s : NodeState) (ev : ParameterEvent) (n : String),
      (∀ p ∈ pl, p.name ≠ n) →
      dictLookup (setAtomLoop pl s ev).1._parameters n = dictLookup s._parameters n := by
  induction pl with
  | nil => intro s ev n _; rfl
  | cons p rest ih =>
    intro s ev n hn
    have hpn : p.name ≠ n := hn p (List.mem_cons_self _ _)
    have hrest : ∀ q ∈ rest, q.name ≠ n := fun q hq => hn q (List.mem_cons_of_mem _ hq)
    simp only [setAtomLoop]
    split
    · split <;> split <;> rw [ih _ _ _ hrest] <;>
        exact dictLookup_dictErase_ne hpn
    · split <;> rw [ih _ _ _ hrest] <;>
        simp [dictLookup_dictSet, if_neg hpn]

/-- Specification-side classifier: the batch entry deletes its name (its
value is NOT_SET while the name is currently stored). -/
def isDeletedEntry (s : NodeState) (p : Parameter) : Bool :=
  decide (p.type_ = PType.NOT_SET) && s.has_parameter p.name

/-- Specification-side classifier: the batch entry is brand new (its value
is set while the name is currently absent). -/
def isNewEntry (s : NodeState) (p : Parameter) : Bool :=
  !decide (p.type_ = PType.NOT_SET) && !s.has_parameter p.name

/-- Specification-side classifier: the batch entry overwrites a stored
value (its value is set and the name is currently stored). -/
def isChangedEntry (s : NodeState) (p : Parameter) : Bool :=
  !decide (p.type_ = PType.NOT_SET) && s.has_parameter p.name

theorem StoreWF_dictErase {d : List (String × Parameter)} {k : String}
    (h : StoreWF d) : StoreWF (dictErase d k) :=
  ⟨keysNodup_dictErase h.1, fun pr hpr => h.2 pr (mem_dictErase hpr)⟩

theorem StoreWF_dictSet {d : List (String × Parameter)} {k : String} {v : Parameter}
    (h : StoreWF d) (hv : v.type_ ≠ PType.NOT_SET) : StoreWF (dictSet d k v) := by
  refine ⟨keysNodup_dictSet h.1, fun pr hpr => ?_⟩
  rcases mem_dictSet hpr with h' | h'
  · rw [show pr.2 = v from congrArg Prod.snd h']
    exact hv
  · exact h.2 pr h'

theorem has_parameter_false_iff {s : NodeState} {n : String} :
    s.has_parameter n = false ↔ dictLookup s._parameters n = none := by
  unfold NodeState.has_parameter
  cases dictLookup s._parameters n <;> simp

theorem getOr_type_notSet_iff {s : NodeState} {n : String}
    (h : ParamsNoUnset s._parameters) :
    (s.get_parameter_or n).type_ = PType.NOT_SET ↔ s.has_parameter n = false := by
  unfold NodeState.get_parameter_or NodeState.has_parameter
  cases hl : dictLookup s._parameters n with
  | none => simp [Parameter.type_, ParamValue.ptype]
  | some p =>
    simp only [Option.isSome_some, Bool.true_eq_false, iff_false]
    exact h (n, p) (dictLookup_mem hl)

theorem classifiers_congr {s s' : NodeState} {q : Parameter}
    (h : dictLookup s'._parameters q.name = dictLookup s._parameters q.name) :
    isDeletedEntry s' q = isDeletedEntry s q ∧
      isNewEntry s' q = isNewEntry s q ∧
      isChangedEntry s' q = isChangedEntry s q := by
  have hh : s'.has_parameter q.name = s.has_parameter q.name := by
    unfold NodeState.has_parameter
    rw [h]
  unfold isDeletedEntry isNewEntry isChangedEntry
  rw [hh]
  exact ⟨rfl, rfl, rfl⟩

theorem setAtomLoop_spec (pl : List Parameter) :
    ∀ (s : NodeState) (ev : ParameterEvent),
      StoreWF s._parameters → (pl.map Parameter.name).Nodup →
      (setAtomLoop pl s ev).2.node = ev.node ∧
      (setAtomLoop pl s ev).2.stamp = ev.stamp ∧
      (setAtomLoop pl s ev).2.deleted_parameters
        = ev.deleted_parameters
          ++ (pl.filter (fun q => isDeletedEntry s q)).map Parameter.to_parameter_msg ∧
      (setAtomLoop pl s ev).2.new_parameters
        = ev.new_parameters
          ++ (pl.filter (fun q => isNewEntry s q)).map Parameter.to_parameter_msg ∧
      (setAtomLoop pl s ev).2.changed_parameters
        = ev.changed_parameters
          ++ (pl.filter (fun q => isChangedEntry s q)).map Parameter.to_parameter_msg ∧
      ∀ q ∈ pl, dictLookup (setAtomLoop pl s ev).1._parameters q.name
        = if q.type_ = PType.NOT_SET then none else some q := by
  induction pl with
  | nil =>
    intro s ev _ _
    refine ⟨rfl, rfl, by simp [setAtomLoop], by simp [setAtomLoop], by simp [setAtomLoop], ?_⟩
    intro q hq
    exact absurd hq (List.not_mem_nil q)
  | cons p rest ih =>
    intro s ev hwf hnd
    simp only [List.map_cons, List.nodup_cons] at hnd
    have hqn : ∀ q ∈ rest, q.name ≠ p.name := by
      intro q hq hqe
      exact hnd.1 (hqe ▸ List.mem_map_of_mem Parameter.name hq)
    have hne2 : ∀ q ∈ rest, p.name ≠ q.name := fun q hq hh => hqn q hq hh.symm
    by_cases ht : p.type_ = PType.NOT_SET
    · by_cases hb : s.has_parameter p.name = true
      · -- deletion: NOT_SET value over a stored name
        have hne : (s.get_parameter_or p.name).type_ ≠ PType.NOT_SET := by
          intro h
          rw [getOr_type_notSet_iff hwf.2] at h
          rw [h] at hb
          exact Bool.noConfusion hb
        simp only [setAtomLoop]
        rw [if_pos ht, if_pos hne, if_pos hb]
        obtain ⟨c1, c2, c3, c4, c5, c6⟩ :=
          ih { s with _parameters := dictErase s._parameters p.name }
            { ev with deleted_parameters := ev.deleted_parameters ++ [p.to_parameter_msg] }
            (StoreWF_dictErase hwf) hnd.2
        have hcg : ∀ q ∈ rest,
            isDeletedEntry { s with _parameters := dictErase s._parameters p.name } q
              = isDeletedEntry s q ∧
            isNewEntry { s with _parameters := dictErase s._parameters p.name } q
              = isNewEntry s q ∧
            isChangedEntry { s with _parameters := dictErase s._parameters p.name } q
              = isChangedEntry s q :=
          fun q hq => classifiers_congr (dictLookup_dictErase_ne (hne2 q hq))
        have hdp : isDeletedEntry s p = true := by simp [isDeletedEntry, ht, hb]
        have hnp : ¬ isNewEntry s p = true := by simp [isNewEntry, ht]
        have hcp : ¬ isChangedEntry s p = true := by simp [isChangedEntry, ht]
        refine ⟨c1, c2, ?_, ?_, ?_, ?_⟩
        · rw [c3, List.filter_congr (fun q hq => (hcg q hq).1),
            List.filter_cons_of_pos hdp]
          simp
        · rw [c4, List.filter_congr (fun q hq => (hcg q hq).2.1),
            List.filter_cons_of_neg hnp]
        · rw [c5, List.filter_congr (fun q hq => (hcg q hq).2.2),
            List.filter_cons_of_neg hcp]
        · intro q hq
          rcases List.mem_cons.1 hq with rfl | hq'
          · rw [if_pos ht, setAtomLoop_lookup_untouched rest _ _ q.name hqn]
            exact dictLookup_dictErase_self hwf.1
          · exact c6 q hq'
      · -- NOT_SET value over an absent name: no event entry, no mutation
        have hbf : s.has_parameter p.name = false := by
          cases hhb : s.has_parameter p.name with
          | true => exact absurd hhb hb
          | false => rfl
        have hgeq : (s.get_parameter_or p.name).type_ = PType.NOT_SET :=
          (getOr_type_notSet_iff hwf.2).2 hbf
        simp only [setAtomLoop]
        rw [if_pos ht, if_neg (not_not_intro hgeq), if_neg hb]
        obtain ⟨c1, c2, c3, c4, c5, c6⟩ := ih s ev hwf hnd.2
        have hdp : ¬ isDeletedEntry s p = true := by simp [isDeletedEntry, hbf]
        have hnp : ¬ isNewEntry s p = true := by simp [isNewEntry, ht]
        have hcp : ¬ isChangedEntry s p = true := by simp [isChangedEntry, hbf]
        refine ⟨c1, c2, ?_, ?_, ?_, ?_⟩
        · rw [c3, List.filter_cons_of_neg hdp]
        · rw [c4, List.filter_cons_of_neg hnp]
        · rw [c5, List.filter_cons_of_neg hcp]
        · intro q hq
          rcases List.mem_cons.1 hq with rfl | hq'
          · rw [if_pos ht, setAtomLoop_lookup_untouched rest _ _ q.name hqn]
            exact has_parameter_false_iff.1 hbf
          · exact c6 q hq'
    · by_cases hb : s.has_parameter p.name = true
      · -- change: set value over a stored name
        have hgne : ¬ (s.get_parameter_or p.name).type_ = PType.NOT_SET := by
          intro h
          rw [getOr_type_notSet_iff hwf.2] at h
          rw [h] at hb
          exact Bool.noConfusion hb
        simp only [setAtomLoop]
        rw [if_neg ht, if_neg hgne]
        obtain ⟨c1, c2, c3, c4, c5, c6⟩ :=
          ih { s with _parameters := dictSet s._parameters p.name p }
            { ev with changed_parameters := ev.changed_parameters ++ [p.to_parameter_msg] }
            (StoreWF_dictSet hwf ht) hnd.2
        have hcg : ∀ q ∈ rest,
            isDeletedEntry { s with _parameters := dictSet s._parameters p.name p } q
              = isDeletedEntry s q ∧
            isNewEntry { s with _parameters := dictSet s._parameters p.name p } q
              = isNewEntry s q ∧
            isChangedEntry { s with _parameters := dictSet s._parameters p.name p } q
              = isChangedEntry s q := by
          intro q hq
          refine classifiers_congr ?_
          rw [dictLookup_dictSet, if_neg (hne2 q hq)]
        have hdp : ¬ isDeletedEntry s p = true := by simp [isDeletedEntry, ht]
        have hnp : ¬ isNewEntry s p = true := by simp [isNewEntry, hb]
        have hcp : isChangedEntry s p = true := by simp [isChangedEntry, ht, hb]
        refine ⟨c1, c2, ?_, ?_, ?_, ?_⟩
        · rw [c3, List.filter_congr (fun q hq => (hcg q hq).1),
            List.filter_cons_of_neg hdp]
        · rw [c4, List.filter_congr (fun q hq => (hcg q hq).2.1),
            List.filter_cons_of_neg hnp]
        · rw [c5, List.filter_congr (fun q hq => (hcg q hq).2.2),
            List.filter_cons_of_pos hcp]
          simp
        · intro q hq
          rcases List.mem_cons.1 hq with rfl | hq'
          · rw [if_neg ht, setAtomLoop_lookup_untouched rest _ _ q.name hqn]
            rw [dictLookup_dictSet]
            simp
          · exact c6 q hq'
      · -- new: set value over an absent name
        have hbf : s.has_parameter p.name = false := by
          cases hhb : s.has_parameter p.name with
          | true => exact absurd hhb hb
          | false => rfl
        have hgeq : (s.get_parameter_or p.name).type_ = PType.NOT_SET :=
          (getOr_type_notSet_iff hwf.2).2 hbf
        simp only [setAtomLoop]
        rw [if_neg ht, if_pos hgeq]
        obtain ⟨c1, c2, c3, c4, c5, c6⟩ :=
          ih { s with _parameters := dictSet s._parameters p.name p }
            { ev with new_parameters := ev.new_parameters ++ [p.to_parameter_msg] }
            (StoreWF_dictSet hwf ht) hnd.2
        have hcg : ∀ q ∈ rest,
            isDeletedEntry { s with _parameters := dictSet s._parameters p.name p } q
              = isDeletedEntry s q ∧
            isNewEntry { s with _parameters := dictSet s._parameters p.name p } q
              = isNewEntry s q ∧
            isChangedEntry { s with _parameters := dictSet s._parameters p.name p } q
              = isChangedEntry s q := by
          intro q hq
          refine classifiers_congr ?_
          rw [dictLookup_dictSet, if_neg (hne2 q hq)]
        have hdp : ¬ isDeletedEntry s p = true := by simp [isDeletedEntry, ht]
        have hnp : isNewEntry s p = true := by simp [isNewEntry, ht, hbf]
        have hcp : ¬ isChangedEntry s p = true := by simp [isChangedEntry, hbf]
        refine ⟨c1, c2, ?_, ?_, ?_, ?_⟩
        · rw [c3, List.filter_congr (fun q hq => (hcg q hq).1),
            List.filter_cons_of_neg hdp]
        · rw [c4, List.filter_congr (fun q hq => (hcg q hq).2.1),
            List.filter_cons_of_pos hnp]
          simp
        · rw [c5, List.filter_congr (fun q hq => (hcg q hq).2.2),
            List.filter_cons_of_neg hcp]
        · intro q hq
          rcases List.mem_cons.1 hq with rfl | hq'
          · rw [if_neg ht, setAtomLoop_lookup_untouched rest _ _ q.name hqn]
            rw [dictLookup_dictSet]
            simp
          · exact c6 q hq'

theorem anyThenList_all_false {l : List Bool} (h : ∀ b ∈ l, b = false) :
    anyThenList l = (false, []) := by
  induction l with
  | nil => rfl
  | cons b rest ih =>
    have hb : b = false := h b (List.mem_cons_self _ _)
    subst hb
    exact ih (fun b hb => h b (List.mem_cons_of_mem _ hb))

theorem atomicRejected (s : NodeState) (cb : Option Callback) (pl : List Parameter)
    (h : (callbackResult cb pl).successful = false) :
    (s._set_parameters_atomically cb pl).result = callbackResult cb pl ∧
    (s._set_parameters_atomically cb pl).state = s ∧
    (s._set_parameters_atomically cb pl).events = [] := by
  unfold NodeState._set_parameters_atomically
  rw [if_neg (by simp [h])]
  exact ⟨rfl, rfl, rfl⟩

theorem unchecked_set_single (s : NodeState) (g : Parameter) (cb : Option Callback)
    (hok : (callbackResult cb [g]).successful = true) (ht : g.type_ ≠ PType.NOT_SET) :
    (s._set_parameters_atomically cb [g]).result = callbackResult cb [g] ∧
    (s._set_parameters_atomically cb [g]).state
      = { s with _parameters := dictSet s._parameters g.name g } := by
  unfold NodeState._set_parameters_atomically
  rw [if_pos hok]
  refine ⟨rfl, ?_⟩
  simp only [setAtomLoop]
  rw [if_neg ht]

theorem checked_set_single_ok (s : NodeState) (g : Parameter) (cb : Option Callback)
    (hhas : s.has_parameter g.name = true)
    (hok : (callbackResult cb [g]).successful = true)
    (ht : g.type_ ≠ PType.NOT_SET) :
    (s.set_parameters_atomically cb [g]).res = .ok (callbackResult cb [g]) ∧
    (s.set_parameters_atomically cb [g]).state
      = { s with _parameters := dictSet s._parameters g.name g } := by
  unfold NodeState.set_parameters_atomically
  simp only [List.map_cons, List.map_nil, hhas, Bool.not_true, anyThenList]
  rw [if_neg (by simp)]
  have h2 := unchecked_set_single s g cb hok ht
  exact ⟨by rw [h2.1], by rw [h2.2]⟩

theorem checked_set_single_undeclared (s : NodeState) (g : Parameter) (cb : Option Callback)
    (hallow : s._allow_undeclared_parameters = false)
    (hhas : s.has_parameter g.name = false) :
    (s.set_parameters_atomically cb [g]).res = .error (.notDeclaredMany []) ∧
    (s.set_parameters_atomically cb [g]).state = s := by
  unfold NodeState.set_parameters_atomically
  simp only [List.map_cons, List.map_nil, hhas, Bool.not_false, anyThenList]
  rw [if_pos (by simp [hallow, anyThenList])]
  exact ⟨rfl, rfl⟩

theorem foldl_dictSet_untouched (gs : List Parameter) :
    ∀ (d : List (String × Parameter)) (n : String),
      (∀ q ∈ gs, q.name ≠ n) →
      dictLookup (gs.foldl (fun d q => dictSet d q.name q) d) n = dictLookup d n := by
  induction gs with
  | nil => intro d n _; rfl
  | cons g rest ih =>
    intro d n hn
    rw [List.foldl_cons, ih _ _ (fun q hq => hn q (List.mem_cons_of_mem _ hq)),
      dictLookup_dictSet, if_neg (hn g (List.mem_cons_self _ _))]

theorem foldl_dictSet_lookup (gs : List Parameter) :
    ∀ (d : List (String × Parameter)) (q : Parameter),
      q ∈ gs → (gs.map Parameter.name).Nodup →
      dictLookup (gs.foldl (fun d q => dictSet d q.name q) d) q.name = some q := by
  induction gs with
  | nil => intro d q hq _; exact absurd hq (List.not_mem_nil q)
  | cons g rest ih =>
    intro d q hq hnd
    simp only [List.map_cons, List.nodup_cons] at hnd
    rw [List.foldl_cons]
    rcases List.mem_cons.1 hq with rfl | hq'
    · have hr : ∀ p ∈ rest, p.name ≠ q.name := by
        intro p hp he
        exact hnd.1 (he ▸ List.mem_map_of_mem Parameter.name hp)
      rw [foldl_dictSet_untouched rest _ _ hr, dictLookup_dictSet, if_pos rfl]
    · exact ih _ q hq' hnd.2

theorem buildParameterList_ok (validate : String → Option (String × Nat)) (ns : String)
    (ts : List (String × ParamValue × ParameterDescriptor))
    (h : ∀ t ∈ ts, validate (ns ++ t.1) = none) :
    buildParameterList validate ns ts = .ok (ts.map (buildOne ns)) := by
  induction ts with
  | nil => rfl
  | cons t rest ih =>
    simp only [buildParameterList, h t (List.mem_cons_self _ _),
      ih (fun t ht => h t (List.mem_cons_of_mem _ ht)), List.map_cons]

theorem atomic_noUnset (s : NodeState) (cb : Option Callback) (pl : List Parameter)
    (h : ParamsNoUnset s._parameters) :
    ParamsNoUnset (s._set_parameters_atomically cb pl).state._parameters := by
  unfold NodeState._set_parameters_atomically
  dsimp only
  split
  · exact setAtomLoop_noUnset pl s _ h
  · exact h

theorem checked_atomic_noUnset (s : NodeState) (cb : Option Callback) (pl : List Parameter)
    (h : ParamsNoUnset s._parameters) :
    ParamsNoUnset (s.set_parameters_atomically cb pl).state._parameters := by
  unfold NodeState.set_parameters_atomically
  dsimp only
  split
  · exact h
  · exact atomic_noUnset s cb pl h

theorem applySetter_noUnset (k : SetterKind) (s : NodeState) (cb : Option Callback)
    (pl : List Parameter) (h : ParamsNoUnset s._parameters) :
    ParamsNoUnset (applySetter k s cb pl).state._parameters := by
  cases k with
  | unchecked => exact atomic_noUnset s cb pl h
  | checked => exact checked_atomic_noUnset s cb pl h

theorem go_noUnset (k : SetterKind) (raise_on_failure : Bool) (cb : Option Callback)
    (pl : List Parameter) :
    ∀ (s : NodeState), ParamsNoUnset s._parameters →
      ParamsNoUnset (_set_parameters_go k raise_on_failure cb pl s).state._parameters := by
  induction pl with
  | nil => intro s h; exact h
  | cons p rest ih =>
    intro s h
    simp only [_set_parameters_go]
    split
    · exact applySetter_noUnset k s cb [p] h
    · split
      · exact applySetter_noUnset k s cb [p] h
      · exact ih _ (applySetter_noUnset k s cb [p] h)

theorem declare_noUnset (s : NodeState) (cb : Option Callback)
    (validate : String → Option (String × Nat)) (ns : String)
    (ts : List (String × ParamValue × ParameterDescriptor))
    (h : ParamsNoUnset s._parameters) :
    ParamsNoUnset (s.declare_parameters cb validate ns ts).state._parameters := by
  unfold NodeState.declare_parameters
  dsimp only
  split
  · exact h
  · split
    · exact h
    · split
      · exact go_noUnset _ _ _ _ _ h
      · split
        · exact go_noUnset _ _ _ _ _ h
        · exact go_noUnset _ _ _ _ _ h

theorem undeclare_noUnset (s : NodeState) (n : String) (h : ParamsNoUnset s._parameters) :
    ParamsNoUnset (s.undeclare_parameter n).2._parameters := by
  unfold NodeState.undeclare_parameter
  split
  · split
    · exact h
    · exact fun pr hpr => h pr (mem_dictErase hpr)
  · exact h

/-- Concrete parameter used by witness instances. -/
def sampleParamA : Parameter :=
  { name := "a", value := ParamValue.intV 1, descriptor := {} }

/-- Concrete node state used by witness instances: one stored parameter
`a`, undeclared parameters disallowed. -/
def sampleState : NodeState :=
  { _parameters := [(("a"), sampleParamA)]
    _allow_undeclared_parameters := false
    node_name := "talker"
    node_namespace := "/"
    clock_now := 7 }

/-- Concrete read-only parameter used by witness instances. -/
def sampleReadOnly : Parameter :=
  { name := "ro", value := ParamValue.boolV true, descriptor := { read_only := true } }

/-- Concrete node state holding one read-only parameter. -/
def sampleStateRO : NodeState :=
  { _parameters := [(("ro"), sampleReadOnly)]
    _allow_undeclared_parameters := false
    node_name := "talker"
    node_namespace := "/"
    clock_now := 3 }

/-- Concrete node state with an empty store. -/
def emptyState : NodeState :=
  { _parameters := []
    _allow_undeclared_parameters := false
    node_name := "talker"
    node_namespace := "/"
    clock_now := 0 }

/-- Concrete always-rejecting validation callback. -/
def rejectCb : Callback := fun _ => { successful := false, reason := "rejected" }

/-- C1: for every store state and parameter list, when a registered
validation callback returns an unsuccessful result for the batch, the
atomic-set primitive `_set_parameters_atomically` returns the callback's
result object as-is, leaves the whole state (hence every stored parameter)
identical to its pre-call value, and publishes no ParameterEvent. -/
theorem C1_atomic_set_rejected (s : NodeState) (cb : Callback) (pl : List Parameter)
    (h : (cb pl).successful = false) :
    (s._set_parameters_atomically (some cb) pl).result = cb pl ∧
    (s._set_parameters_atomically (some cb) pl).state = s ∧
    (s._set_parameters_atomically (some cb) pl).events = [] :=
  atomicRejected s (some cb) pl h

/-- Witness for C1 at a concrete store, batch and rejecting callback. -/
theorem C1_atomic_set_rejected_witness :
    (rejectCb [sampleParamA]).successful = false ∧
    ((sampleState._set_parameters_atomically (some rejectCb) [sampleParamA]).result
        = rejectCb [sampleParamA] ∧
      (sampleState._set_parameters_atomically (some rejectCb) [sampleParamA]).state
        = sampleState ∧
      (sampleState._set_parameters_atomically (some rejectCb) [sampleParamA]).events = []) :=
  ⟨rfl, C1_atomic_set_rejected sampleState rejectCb [sampleParamA] rfl⟩

/-- C10: calling the public `set_parameters_atomically` with an empty
parameter list, when no callback is registered or the callback accepts,
returns the successful result, leaves the state unchanged, and still
publishes exactly one ParameterEvent whose three parameter lists are all
empty, stamped with the clock reading and addressed to the fully qualified
node path. -/
theorem C10_empty_batch (s : NodeState) (cb : Option Callback)
    (h : (callbackResult cb []).successful = true) :
    (s.set_parameters_atomically cb []).res = .ok (callbackResult cb []) ∧
    (s.set_parameters_atomically cb []).state = s ∧
    (s.set_parameters_atomically cb []).events
      = [{ node := s.fullyQualifiedPath, new_parameters := [], changed_parameters := [],
           deleted_parameters := [], stamp := s.clock_now }] := by
  unfold NodeState.set_parameters_atomically
  simp only [List.map_nil, anyThenList]
  rw [if_neg (by simp)]
  unfold NodeState._set_parameters_atomically
  rw [if_pos h]
  exact ⟨rfl, rfl, rfl⟩

/-- Witness for C10 at a concrete store with no registered callback. -/
theorem C10_empty_batch_witness :
    (callbackResult none []).successful = true ∧
    ((sampleState.set_parameters_atomically none []).res = .ok (callbackResult none []) ∧
      (sampleState.set_parameters_atomically none []).state = sampleState ∧
      (sampleState.set_parameters_atomically none []).events
        = [{ node := sampleState.fullyQualifiedPath, new_parameters := [],
             changed_parameters := [], deleted_parameters := [],
             stamp := sampleState.clock_now }]) :=
  ⟨rfl, C10_empty_batch sampleState none rfl⟩

/-- C8: `undeclare_parameter` on a stored read-only parameter fails with
Immutable and leaves the state (hence the parameter) unchanged;
`undeclare_parameter` on an absent name fails with NotDeclared. -/
theorem C8_undeclare_errors (s : NodeState) (n1 n2 : String) (p : Parameter)
    (h1 : dictLookup s._parameters n1 = some p)
    (h2 : p.descriptor.read_only = true)
    (h3 : s.has_parameter n2 = false) :
    (s.undeclare_parameter n1).1 = .error (.immutable n1) ∧
    (s.undeclare_parameter n1).2 = s ∧
    dictLookup (s.undeclare_parameter n1).2._parameters n1 = some p ∧
    (s.undeclare_parameter n2).1 = .error (.notDeclaredName n2) ∧
    (s.undeclare_parameter n2).2 = s := by
  have hl2 : dictLookup s._parameters n2 = none := has_parameter_false_iff.1 h3
  refine ⟨?_, ?_, ?_, ?_, ?_⟩ <;> simp [NodeState.undeclare_parameter, h1, hl2, h2]

/-- Witness for C8 at a concrete store with a read-only parameter and an
absent name. -/
theorem C8_undeclare_errors_witness :
    (dictLookup sampleStateRO._parameters ("ro") = some sampleReadOnly ∧
      sampleReadOnly.descriptor.read_only = true ∧
      sampleStateRO.has_parameter ("nope") = false) ∧
    ((sampleStateRO.undeclare_parameter ("ro")).1 = .error (.immutable ("ro")) ∧
      (sampleStateRO.undeclare_parameter ("ro")).2 = sampleStateRO ∧
      dictLookup (sampleStateRO.undeclare_parameter ("ro")).2._parameters ("ro")
        = some sampleReadOnly ∧
      (sampleStateRO.undeclare_parameter ("nope")).1 = .error (.notDeclaredName ("nope")) ∧
      (sampleStateRO.undeclare_parameter ("nope")).2 = sampleStateRO) :=
  ⟨⟨by decide, by decide, by decide⟩,
    C8_undeclare_errors sampleStateRO ("ro") ("nope") sampleReadOnly
      (by decide) (by decide) (by decide)⟩

/-- C9: the read_only descriptor blocks only the undeclare transition:
setting a stored read-only parameter through `set_parameters_atomically`
is not rejected on account of the flag (the new value is applied when the
callback accepts), while `undeclare_parameter` on it fails with
Immutable. -/
theorem C9_read_only_set_allowed (s : NodeState) (cb : Option Callback)
    (stored newp : Parameter)
    (h1 : dictLookup s._parameters newp.name = some stored)
    (h2 : stored.descriptor.read_only = true)
    (h4 : newp.type_ ≠ PType.NOT_SET)
    (h5 : (callbackResult cb [newp]).successful = true) :
    (s.set_parameters_atomically cb [newp]).res = .ok (callbackResult cb [newp]) ∧
    dictLookup (s.set_parameters_atomically cb [newp]).state._parameters newp.name
      = some newp ∧
    (s.undeclare_parameter newp.name).1 = .error (.immutable newp.name) := by
  have hhas : s.has_parameter newp.name = true := by
    unfold NodeState.has_parameter
    rw [h1]
    rfl
  have hc := checked_set_single_ok s newp cb hhas h5 h4
  refine ⟨hc.1, ?_, ?_⟩
  · rw [hc.2]
    show dictLookup (dictSet s._parameters newp.name newp) newp.name = some newp
    rw [dictLookup_dictSet, if_pos rfl]
  · simp [NodeState.undeclare_parameter, h1, h2]

/-- Concrete non-read-only update for the stored read-only parameter. -/
def sampleNewRO : Parameter :=
  { name := "ro", value := ParamValue.boolV false, descriptor := {} }

/-- Witness for C9 at a concrete store with a read-only parameter. -/
theorem C9_read_only_set_allowed_witness :
    (dictLookup sampleStateRO._parameters sampleNewRO.name = some sampleReadOnly ∧
      sampleReadOnly.descriptor.read_only = true ∧
      sampleNewRO.type_ ≠ PType.NOT_SET ∧
      (callbackResult none [sampleNewRO]).successful = true) ∧
    ((sampleStateRO.set_parameters_atomically none [sampleNewRO]).res
        = .ok (callbackResult none [sampleNewRO]) ∧
      dictLookup (sampleStateRO.set_parameters_atomically none [sampleNewRO]).state._parameters
          sampleNewRO.name
        = some sampleNewRO ∧
      (sampleStateRO.undeclare_parameter sampleNewRO.name).1
        = .error (.immutable sampleNewRO.name)) :=
  ⟨⟨by decide, by decide, by decide, by decide⟩,
    C9_read_only_set_allowed sampleStateRO none sampleReadOnly sampleNewRO
      (by decide) (by decide) (by decide) (by decide)⟩

/-- C4 (evaluation at the failing input): declaring `a` (already stored)
together with `b` fails with AlreadyDeclared and leaves the store
unchanged, but the exception payload is `[false]` — the booleans left in
the generator after `any` consumed it up to the first hit — not the
offending name `a`. -/
theorem C4_alreadyDeclared_payload_eval :
    (sampleState.declare_parameters none (fun _ => none) ""
        [(("a"), ParamValue.intV 2, {}), (("b"), ParamValue.intV 3, {})]).res
      = .error (.alreadyDeclared [false]) ∧
    (sampleState.declare_parameters none (fun _ => none) ""
        [(("a"), ParamValue.intV 2, {}), (("b"), ParamValue.intV 3, {})]).state
      = sampleState ∧
    (sampleState.declare_parameters none (fun _ => none) ""
        [(("a"), ParamValue.intV 2, {}), (("b"), ParamValue.intV 3, {})]).events = [] := by
  exact ⟨by decide, by decide, by decide⟩

/-- C7 counterexample: on an empty store that disallows undeclared
parameters, declaring the fresh valid name `a` with a NOT_SET value makes
the declare call itself fail with NotDeclared (nothing is stored and the
final re-read raises), so declare-then-get does not return the declared
value. -/
theorem C7_counterexample :
    emptyState.has_parameter ("a") = false ∧
    (emptyState.declare_parameters none (fun _ => none) ""
        [(("a"), ParamValue.notSet, {})]).res
      = .error (.notDeclaredName ("a")) := by
  exact ⟨by decide, by decide⟩

theorem atomic_entries (s : NodeState) (cb : Option Callback) (pl : List Parameter) :
    ∀ pr ∈ (s._set_parameters_atomically cb pl).state._parameters,
      pr ∈ s._parameters ∨ (pr.2 ∈ pl ∧ pr.2.type_ ≠ PType.NOT_SET) := by
  intro pr hpr
  unfold NodeState._set_parameters_atomically at hpr
  dsimp only at hpr
  split at hpr
  · exact setAtomLoop_entries pl s _ pr hpr
  · exact Or.inl hpr

theorem atomic_notset_removed (s : NodeState) (cb : Option Callback)
    (pl : List Parameter)
    (hwf : StoreWF s._parameters) (hnd : (pl.map Parameter.name).Nodup)
    (hok : (callbackResult cb pl).successful = true) :
    ∀ p ∈ pl, p.type_ = PType.NOT_SET →
      dictLookup (s._set_parameters_atomically cb pl).state._parameters p.name = none := by
  intro p hp ht
  have hper := (setAtomLoop_spec pl s { node := s.fullyQualifiedPath } hwf hnd).2.2.2.2.2 p hp
  unfold NodeState._set_parameters_atomically
  rw [if_pos hok]
  exact hper.trans (if_pos ht)

theorem checked_atomic_notset_removed (s : NodeState) (cb : Option Callback)
    (pl : List Parameter)
    (hwf : StoreWF s._parameters) (hnd : (pl.map Parameter.name).Nodup)
    (hok : (callbackResult cb pl).successful = true)
    (hdecl : ∀ q ∈ pl, s.has_parameter q.name = true) :
    ∀ p ∈ pl, p.type_ = PType.NOT_SET →
      dictLookup (s.set_parameters_atomically cb pl).state._parameters p.name = none := by
  intro p hp ht
  have hall : ∀ b ∈ pl.map (fun q => !s.has_parameter q.name), b = false := by
    intro b hb
    obtain ⟨q, hq, hqb⟩ := List.mem_map.1 hb
    subst hqb
    rw [hdecl q hq]
    rfl
  unfold NodeState.set_parameters_atomically
  dsimp only
  rw [anyThenList_all_false hall]
  rw [if_neg (by simp)]
  exact atomic_notset_removed s cb pl hwf hnd hok p hp ht

theorem checked_set_single_notset (s : NodeState) (cb : Option Callback) (p : Parameter)
    (hkeys : (s._parameters.map Prod.fst).Nodup)
    (ht : p.type_ = PType.NOT_SET)
    (hok1 : (callbackResult cb [p]).successful = true) :
    dictLookup (s.set_parameters_atomically cb [p]).state._parameters p.name = none := by
  unfold NodeState.set_parameters_atomically
  dsimp only
  by_cases hhas : s.has_parameter p.name = true
  · simp only [List.map_cons, List.map_nil, hhas, Bool.not_true, anyThenList]
    rw [if_neg (by simp)]
    unfold NodeState._set_parameters_atomically
    rw [if_pos hok1]
    simp only [setAtomLoop]
    rw [if_pos ht, if_pos hhas]
    exact dictLookup_dictErase_self hkeys
  · have hhasf : s.has_parameter p.name = false := by
      cases hh : s.has_parameter p.name with
      | true => exact absurd hh hhas
      | false => rfl
    have hnone : dictLookup s._parameters p.name = none := has_parameter_false_iff.1 hhasf
    simp only [List.map_cons, List.map_nil, hhasf, Bool.not_false, anyThenList]
    by_cases hallow : s._allow_undeclared_parameters = true
    · rw [if_neg (by simp [hallow])]
      unfold NodeState._set_parameters_atomically
      rw [if_pos hok1]
      simp only [setAtomLoop]
      rw [if_pos ht, if_neg (by simp [hhasf])]
      exact hnone
    · have hallowf : s._allow_undeclared_parameters = false := by
        cases hh : s._allow_undeclared_parameters with
        | true => exact absurd hh hallow
        | false => rfl
      rw [if_pos (by simp [hallowf])]
      exact hnone

theorem set_parameters_single_state (s : NodeState) (cb : Option Callback) (p : Parameter) :
    (s.set_parameters cb [p]).state = (s.set_parameters_atomically cb [p]).state := by
  unfold NodeState.set_parameters
  simp only [_set_parameters_go, applySetter]
  cases hres : (s.set_parameters_atomically cb [p]).res with
  | error e => rfl
  | ok r => split <;> rfl

theorem undeclare_removed (s : NodeState) (n : String)
    (hkeys : (s._parameters.map Prod.fst).Nodup)
    (hok2 : (s.undeclare_parameter n).1 = .ok ()) :
    dictLookup (s.undeclare_parameter n).2._parameters n = none := by
  unfold NodeState.undeclare_parameter at hok2 ⊢
  cases hl : dictLookup s._parameters n with
  | none =>
    rw [hl] at hok2
    simp at hok2
  | some p =>
    rw [hl] at hok2
    dsimp only at hok2 ⊢
    by_cases hro : p.descriptor.read_only = true
    · rw [if_pos hro] at hok2
      simp at hok2
    · rw [if_neg hro]
      exact dictLookup_dictErase_self hkeys

/-- C5: the store invariant — no stored parameter ever has type NOT_SET —
is preserved by declare, set, atomic set (public and primitive) and
undeclare; every entry stored by the atomic primitive comes either from
the previous store or from a batch element whose type is not NOT_SET; and
an operation that would set a parameter to NOT_SET instead removes that
name from the store: after an accepted atomic batch (primitive, and
public given declared names) every NOT_SET entry name is absent, a
one-element `set_parameters` call — the only shape in which the set and
declare loops ever invoke the atomic setter — with a NOT_SET value leaves
the name absent, and a successful undeclare leaves the name absent. -/
theorem C5_invariant_preserved (s : NodeState) (cb : Option Callback)
    (validate : String → Option (String × Nat)) (ns : String)
    (ts : List (String × ParamValue × ParameterDescriptor))
    (pl : List Parameter) (n : String)
    (h : ParamsNoUnset s._parameters)
    (hkeys : (s._parameters.map Prod.fst).Nodup) :
    ParamsNoUnset (s.declare_parameters cb validate ns ts).state._parameters ∧
    ParamsNoUnset (s.set_parameters cb pl).state._parameters ∧
    ParamsNoUnset (s.set_parameters_atomically cb pl).state._parameters ∧
    ParamsNoUnset (s._set_parameters_atomically cb pl).state._parameters ∧
    ParamsNoUnset (s.undeclare_parameter n).2._parameters ∧
    (∀ pr ∈ (s._set_parameters_atomically cb pl).state._parameters,
      pr ∈ s._parameters ∨ (pr.2 ∈ pl ∧ pr.2.type_ ≠ PType.NOT_SET)) ∧
    ((pl.map Parameter.name).Nodup → (callbackResult cb pl).successful = true →
      ∀ p ∈ pl, p.type_ = PType.NOT_SET →
        dictLookup (s._set_parameters_atomically cb pl).state._parameters p.name = none) ∧
    ((pl.map Parameter.name).Nodup → (callbackResult cb pl).successful = true →
      (∀ q ∈ pl, s.has_parameter q.name = true) →
      ∀ p ∈ pl, p.type_ = PType.NOT_SET →
        dictLookup (s.set_parameters_atomically cb pl).state._parameters p.name = none) ∧
    (∀ p : Parameter, p.type_ = PType.NOT_SET →
      (callbackResult cb [p]).successful = true →
      dictLookup (s.set_parameters cb [p]).state._parameters p.name = none) ∧
    ((s.undeclare_parameter n).1 = .ok () →
      dictLookup (s.undeclare_parameter n).2._parameters n = none) :=
  ⟨declare_noUnset s cb validate ns ts h,
    go_noUnset SetterKind.checked false cb pl s h,
    checked_atomic_noUnset s cb pl h,
    atomic_noUnset s cb pl h,
    undeclare_noUnset s n h,
    atomic_entries s cb pl,
    fun hnd hok => atomic_notset_removed s cb pl ⟨hkeys, h⟩ hnd hok,
    fun hnd hok hdecl => checked_atomic_notset_removed s cb pl ⟨hkeys, h⟩ hnd hok hdecl,
    fun p ht hok1 => by
      rw [set_parameters_single_state]
      exact checked_set_single_notset s cb p hkeys ht hok1,
    fun hok2 => undeclare_removed s n hkeys hok2⟩

/-- Concrete NOT_SET-valued parameter named like the stored `a`. -/
def unsetA : Parameter := { name := "a", value := ParamValue.notSet, descriptor := {} }

/-- Witness for C5 at a concrete store and concrete operations, including
a NOT_SET entry whose name is removed by the atomic set. -/
theorem C5_invariant_preserved_witness :
    (ParamsNoUnset sampleState._parameters ∧
      ((sampleState._parameters.map Prod.fst)).Nodup) ∧
    (ParamsNoUnset (sampleState.declare_parameters none (fun _ => none) ""
        [(("b"), ParamValue.intV 2, {})]).state._parameters ∧
      ParamsNoUnset (sampleState.set_parameters none [unsetA]).state._parameters ∧
      ParamsNoUnset
        (sampleState.set_parameters_atomically none [unsetA]).state._parameters ∧
      ParamsNoUnset
        (sampleState._set_parameters_atomically none [unsetA]).state._parameters ∧
      ParamsNoUnset (sampleState.undeclare_parameter ("a")).2._parameters ∧
      (∀ pr ∈ (sampleState._set_parameters_atomically none [unsetA]).state._parameters,
        pr ∈ sampleState._parameters ∨
          (pr.2 ∈ [unsetA] ∧ pr.2.type_ ≠ PType.NOT_SET)) ∧
      (([unsetA].map Parameter.name).Nodup →
        (callbackResult none [unsetA]).successful = true →
        ∀ p ∈ [unsetA], p.type_ = PType.NOT_SET →
          dictLookup (sampleState._set_parameters_atomically
              none [unsetA]).state._parameters p.name = none) ∧
      (([unsetA].map Parameter.name).Nodup →
        (callbackResult none [unsetA]).successful = true →
        (∀ q ∈ [unsetA], sampleState.has_parameter q.name = true) →
        ∀ p ∈ [unsetA], p.type_ = PType.NOT_SET →
          dictLookup (sampleState.set_parameters_atomically
              none [unsetA]).state._parameters p.name = none) ∧
      (∀ p : Parameter, p.type_ = PType.NOT_SET →
        (callbackResult none [p]).successful = true →
        dictLookup (sampleState.set_parameters none [p]).state._parameters p.name = none) ∧
      ((sampleState.undeclare_parameter ("a")).1 = .ok () →
        dictLookup (sampleState.undeclare_parameter ("a")).2._parameters ("a") = none)) :=
  ⟨⟨by decide, by decide⟩,
    C5_invariant_preserved sampleState none (fun _ => none) ""
      [(("b"), ParamValue.intV 2, {})] [unsetA] ("a") (by decide) (by decide)⟩

/-- C2 counterexample: submitting the same name twice in one accepted
batch (insert `a`, then overwrite `a`) publishes one event whose
new_parameters and changed_parameters both carry the name `a`: the three
event lists are not disjoint as the claim states for every batch. -/
theorem C2_counterexample :
    (emptyState._set_parameters_atomically none
        [{ name := "a", value := ParamValue.intV 1, descriptor := {} },
         { name := "a", value := ParamValue.intV 2, descriptor := {} }]).events
      = [{ node := "/talker"
           new_parameters := [{ name := "a", value := ParamValue.intV 1 }]
           changed_parameters := [{ name := "a", value := ParamValue.intV 2 }]
           deleted_parameters := []
           stamp := 0 }] ∧
    ((emptyState._set_parameters_atomically none
        [{ name := "a", value := ParamValue.intV 1, descriptor := {} },
         { name := "a", value := ParamValue.intV 2, descriptor := {} }]).events.map
      (fun ev => ev.new_parameters.map ParameterMsg.name)) = [[("a")]] ∧
    ((emptyState._set_parameters_atomically none
        [{ name := "a", value := ParamValue.intV 1, descriptor := {} },
         { name := "a", value := ParamValue.intV 2, descriptor := {} }]).events.map
      (fun ev => ev.changed_parameters.map ParameterMsg.name)) = [[("a")]] := by
  exact ⟨by decide, by decide, by decide⟩

/-- C2 (amended: batch names pairwise distinct, store well-formed): for an
accepted batch, `_set_parameters_atomically` publishes exactly one event
addressed to the fully qualified node path and stamped with the clock
reading; its deleted/new/changed lists are exactly the batch entries that
delete a stored name / insert a fresh name / overwrite a stored name, in
batch order; those entries are applied to the store accordingly; the three
lists are name-disjoint and their names cover exactly the batch names with
a visible effect (a set value, or a NOT_SET value deleting a stored name). -/
theorem C2_classification (s : NodeState) (cb : Option Callback) (pl : List Parameter)
    (hwf : StoreWF s._parameters)
    (hnd : (pl.map Parameter.name).Nodup)
    (hok : (callbackResult cb pl).successful = true) :
    (s._set_parameters_atomically cb pl).result = callbackResult cb pl ∧
    (s._set_parameters_atomically cb pl).events
      = [{ node := s.fullyQualifiedPath
           new_parameters :=
             (pl.filter (fun q => isNewEntry s q)).map Parameter.to_parameter_msg
           changed_parameters :=
             (pl.filter (fun q => isChangedEntry s q)).map Parameter.to_parameter_msg
           deleted_parameters :=
             (pl.filter (fun q => isDeletedEntry s q)).map Parameter.to_parameter_msg
           stamp := s.clock_now }] ∧
    (∀ q ∈ pl, dictLookup (s._set_parameters_atomically cb pl).state._parameters q.name
        = if q.type_ = PType.NOT_SET then none else some q) ∧
    (∀ n, ¬ (n ∈ (pl.filter (fun q => isDeletedEntry s q)).map Parameter.name ∧
             n ∈ (pl.filter (fun q => isNewEntry s q)).map Parameter.name)) ∧
    (∀ n, ¬ (n ∈ (pl.filter (fun q => isDeletedEntry s q)).map Parameter.name ∧
             n ∈ (pl.filter (fun q => isChangedEntry s q)).map Parameter.name)) ∧
    (∀ n, ¬ (n ∈ (pl.filter (fun q => isNewEntry s q)).map Parameter.name ∧
             n ∈ (pl.filter (fun q => isChangedEntry s q)).map Parameter.name)) ∧
    (∀ n, (n ∈ (pl.filter (fun q => isDeletedEntry s q)).map Parameter.name ∨
           n ∈ (pl.filter (fun q => isNewEntry s q)).map Parameter.name ∨
           n ∈ (pl.filter (fun q => isChangedEntry s q)).map Parameter.name)
      ↔ ∃ q ∈ pl, q.name = n ∧
          (q.type_ ≠ PType.NOT_SET ∨ s.has_parameter q.name = true)) := by
  have hcfg := setAtomLoop_config pl s { node := s.fullyQualifiedPath }
  obtain ⟨c1, c2, c3, c4, c5, c6⟩ :=
    setAtomLoop_spec pl s { node := s.fullyQualifiedPath } hwf hnd
  refine ⟨?_, ?_, ?_, ?_, ?_, ?_, ?_⟩
  · unfold NodeState._set_parameters_atomically
    rw [if_pos hok]
  · unfold NodeState._set_parameters_atomically
    rw [if_pos hok]
    dsimp only
    have e2 : (setAtomLoop pl s { node := s.fullyQualifiedPath }).2.new_parameters
        = (pl.filter (fun q => isNewEntry s q)).map Parameter.to_parameter_msg := by
      simpa using c4
    have e3 : (setAtomLoop pl s { node := s.fullyQualifiedPath }).2.changed_parameters
        = (pl.filter (fun q => isChangedEntry s q)).map Parameter.to_parameter_msg := by
      simpa using c5
    have e4 : (setAtomLoop pl s { node := s.fullyQualifiedPath }).2.deleted_parameters
        = (pl.filter (fun q => isDeletedEntry s q)).map Parameter.to_parameter_msg := by
      simpa using c3
    rw [c1, e2, e3, e4, hcfg.2.2.1]
  · intro q hq
    have := c6 q hq
    unfold NodeState._set_parameters_atomically
    rw [if_pos hok]
    exact this
  · intro n hn
    obtain ⟨hd, hw⟩ := hn
    simp only [List.mem_map, List.mem_filter] at hd hw
    obtain ⟨q1, ⟨hq1m, hq1f⟩, hq1n⟩ := hd
    obtain ⟨q2, ⟨hq2m, hq2f⟩, hq2n⟩ := hw
    have heq : q1 = q2 :=
      List.inj_on_of_nodup_map hnd hq1m hq2m (by rw [hq1n, hq2n])
    subst heq
    simp only [isDeletedEntry, Bool.and_eq_true, decide_eq_true_eq] at hq1f
    simp only [isNewEntry, Bool.and_eq_true, Bool.not_eq_true', decide_eq_false_iff_not] at hq2f
    exact hq2f.1 hq1f.1
  · intro n hn
    obtain ⟨hd, hw⟩ := hn
    simp only [List.mem_map, List.mem_filter] at hd hw
    obtain ⟨q1, ⟨hq1m, hq1f⟩, hq1n⟩ := hd
    obtain ⟨q2, ⟨hq2m, hq2f⟩, hq2n⟩ := hw
    have heq : q1 = q2 :=
      List.inj_on_of_nodup_map hnd hq1m hq2m (by rw [hq1n, hq2n])
    subst heq
    simp only [isDeletedEntry, Bool.and_eq_true, decide_eq_true_eq] at hq1f
    simp only [isChangedEntry, Bool.and_eq_true, Bool.not_eq_true', decide_eq_false_iff_not] at hq2f
    exact hq2f.1 hq1f.1
  · intro n hn
    obtain ⟨hd, hw⟩ := hn
    simp only [List.mem_map, List.mem_filter] at hd hw
    obtain ⟨q1, ⟨hq1m, hq1f⟩, hq1n⟩ := hd
    obtain ⟨q2, ⟨hq2m, hq2f⟩, hq2n⟩ := hw
    have heq : q1 = q2 :=
      List.inj_on_of_nodup_map hnd hq1m hq2m (by rw [hq1n, hq2n])
    subst heq
    simp only [isNewEntry, Bool.and_eq_true, Bool.not_eq_true', decide_eq_false_iff_not] at hq1f
    simp only [isChangedEntry, Bool.and_eq_true, Bool.not_eq_true', decide_eq_false_iff_not] at hq2f
    rw [hq1f.2] at hq2f
    exact Bool.noConfusion hq2f.2
  · intro n
    constructor
    · intro hmem
      rcases hmem with hd | hw | hc
      · simp only [List.mem_map, List.mem_filter] at hd
        obtain ⟨q, ⟨hqm, hqf⟩, hqn⟩ := hd
        simp only [isDeletedEntry, Bool.and_eq_true, decide_eq_true_eq] at hqf
        exact ⟨q, hqm, hqn, Or.inr hqf.2⟩
      · simp only [List.mem_map, List.mem_filter] at hw
        obtain ⟨q, ⟨hqm, hqf⟩, hqn⟩ := hw
        simp only [isNewEntry, Bool.and_eq_true, Bool.not_eq_true',
          decide_eq_false_iff_not] at hqf
        exact ⟨q, hqm, hqn, Or.inl hqf.1⟩
      · simp only [List.mem_map, List.mem_filter] at hc
        obtain ⟨q, ⟨hqm, hqf⟩, hqn⟩ := hc
        simp only [isChangedEntry, Bool.and_eq_true, Bool.not_eq_true',
          decide_eq_false_iff_not] at hqf
        exact ⟨q, hqm, hqn, Or.inl hqf.1⟩
    · rintro ⟨q, hqm, hqn, heff⟩
      by_cases hty : q.type_ = PType.NOT_SET
      · have hhas : s.has_parameter q.name = true := by
          rcases heff with h | h
          · exact absurd hty h
          · exact h
        refine Or.inl ?_
        simp only [List.mem_map, List.mem_filter]
        exact ⟨q, ⟨hqm, by simp [isDeletedEntry, hty, hhas]⟩, hqn⟩
      · cases hhb : s.has_parameter q.name with
        | true =>
          refine Or.inr (Or.inr ?_)
          simp only [List.mem_map, List.mem_filter]
          exact ⟨q, ⟨hqm, by simp [isChangedEntry, hty, hhb]⟩, hqn⟩
        | false =>
          refine Or.inr (Or.inl ?_)
          simp only [List.mem_map, List.mem_filter]
          exact ⟨q, ⟨hqm, by simp [isNewEntry, hty, hhb]⟩, hqn⟩

/-- C3 counterexample: with undeclared parameters disallowed, setting the
declared `a` and the undeclared `b` in one `set_parameters` call raises
NotDeclared, yet `a` has already been overwritten when the exception
propagates — the absence check does not precede every mutation. -/
theorem C3_counterexample :
    sampleState._allow_undeclared_parameters = false ∧
    dictLookup sampleState._parameters ("a") = some sampleParamA ∧
    sampleState.has_parameter ("b") = false ∧
    (sampleState.set_parameters none
        [{ name := "a", value := ParamValue.intV 5, descriptor := {} },
         { name := "b", value := ParamValue.intV 6, descriptor := {} }]).res
      = .error (.notDeclaredMany []) ∧
    dictLookup (sampleState.set_parameters none
        [{ name := "a", value := ParamValue.intV 5, descriptor := {} },
         { name := "b", value := ParamValue.intV 6, descriptor := {} }]).state._parameters
        ("a")
      = some { name := "a", value := ParamValue.intV 5, descriptor := {} } := by
  exact ⟨by decide, by decide, by decide, by decide, by decide⟩

theorem go_checked_stops (good : List Parameter) :
    ∀ (s : NodeState) (bad : Parameter) (rest : List Parameter),
      s._allow_undeclared_parameters = false →
      (∀ q ∈ good, s.has_parameter q.name = true ∧ q.type_ ≠ PType.NOT_SET) →
      s.has_parameter bad.name = false →
      (_set_parameters_go SetterKind.checked false none (good ++ bad :: rest) s).res
        = .error (.notDeclaredMany []) ∧
      (_set_parameters_go SetterKind.checked false none (good ++ bad :: rest) s).state._parameters
        = good.foldl (fun d q => dictSet d q.name q) s._parameters := by
  induction good with
  | nil =>
    intro s bad rest hallow _ hbad
    have hstep := checked_set_single_undeclared s bad none hallow hbad
    simp only [List.nil_append, _set_parameters_go, applySetter]
    rw [hstep.1]
    exact ⟨rfl, by rw [hstep.2, List.foldl_nil]⟩
  | cons g gs ih =>
    intro s bad rest hallow hgood hbad
    have hg := hgood g (List.mem_cons_self _ _)
    have hstep := checked_set_single_ok s g none hg.1 rfl hg.2
    have hgne : g.name ≠ bad.name := by
      intro he
      rw [he] at hg
      rw [hg.1] at hbad
      exact Bool.noConfusion hbad
    have hgood1 : ∀ q ∈ gs,
        ({ s with _parameters := dictSet s._parameters g.name g } : NodeState).has_parameter q.name
            = true ∧
          q.type_ ≠ PType.NOT_SET := by
      intro q hq
      have h2 := hgood q (List.mem_cons_of_mem _ hq)
      refine ⟨?_, h2.2⟩
      show (dictLookup (dictSet s._parameters g.name g) q.name).isSome = true
      rw [dictLookup_dictSet]
      by_cases he : g.name = q.name
      · rw [if_pos he]
        rfl
      · rw [if_neg he]
        exact h2.1
    have hbad1 :
        ({ s with _parameters := dictSet s._parameters g.name g } : NodeState).has_parameter
          bad.name = false := by
      show (dictLookup (dictSet s._parameters g.name g) bad.name).isSome = false
      rw [dictLookup_dictSet, if_neg hgne]
      exact hbad
    obtain ⟨ihres, ihstate⟩ :=
      ih { s with _parameters := dictSet s._parameters g.name g } bad rest hallow hgood1 hbad1
    simp only [List.cons_append, _set_parameters_go, applySetter]
    rw [hstep.1, hstep.2]
    dsimp only
    rw [if_neg (by simp)]
    constructor
    · show (_set_parameters_go SetterKind.checked false none (gs ++ bad :: rest)
          { s with _parameters := dictSet s._parameters g.name g }).res.map
            (fun rs => callbackResult none [g] :: rs)
        = .error (.notDeclaredMany [])
      rw [ihres]
      rfl
    · show (_set_parameters_go SetterKind.checked false none (gs ++ bad :: rest)
          { s with _parameters := dictSet s._parameters g.name g }).state._parameters
        = (g :: gs).foldl (fun d q => dictSet d q.name q) s._parameters
      rw [List.foldl_cons]
      exact ihstate

/-- C3 (amended): with undeclared parameters disallowed and no callback
registered, a `set_parameters` call whose list is declared-and-set entries
followed by an undeclared name fails with NotDeclared, but the absence
check runs once per element, not before any mutation: the declared entries
before the undeclared one are applied and remain applied, the store equals
the prefix-application of those entries, and the undeclared name stays
absent. -/
theorem C3_per_element_check (s : NodeState) (good : List Parameter) (bad : Parameter)
    (rest : List Parameter)
    (hallow : s._allow_undeclared_parameters = false)
    (hgood : ∀ q ∈ good, s.has_parameter q.name = true ∧ q.type_ ≠ PType.NOT_SET)
    (hgnd : (good.map Parameter.name).Nodup)
    (hbad : s.has_parameter bad.name = false) :
    (s.set_parameters none (good ++ bad :: rest)).res = .error (.notDeclaredMany []) ∧
    (s.set_parameters none (good ++ bad :: rest)).state._parameters
      = good.foldl (fun d q => dictSet d q.name q) s._parameters ∧
    (∀ q ∈ good, dictLookup (s.set_parameters none (good ++ bad :: rest)).state._parameters
        q.name = some q) ∧
    (s.set_parameters none (good ++ bad :: rest)).state.has_parameter bad.name = false := by
  obtain ⟨hres, hstate⟩ := go_checked_stops good s bad rest hallow hgood hbad
  have hgne : ∀ q ∈ good, q.name ≠ bad.name := by
    intro q hq he
    have h2 := hgood q hq
    rw [he] at h2
    rw [h2.1] at hbad
    exact Bool.noConfusion hbad
  refine ⟨hres, hstate, ?_, ?_⟩
  · intro q hq
    show dictLookup (s.set_parameters none (good ++ bad :: rest)).state._parameters q.name
      = some q
    rw [show (s.set_parameters none (good ++ bad :: rest)).state._parameters
        = good.foldl (fun d q => dictSet d q.name q) s._parameters from hstate]
    exact foldl_dictSet_lookup good s._parameters q hq hgnd
  · show (dictLookup (s.set_parameters none (good ++ bad :: rest)).state._parameters
        bad.name).isSome = false
    rw [show (s.set_parameters none (good ++ bad :: rest)).state._parameters
        = good.foldl (fun d q => dictSet d q.name q) s._parameters from hstate]
    rw [foldl_dictSet_untouched good s._parameters bad.name hgne]
    exact hbad

/-- Witness for C3 (amended) at a concrete store: one declared prefix
entry, then an undeclared name. -/
theorem C3_per_element_check_witness :
    (sampleState._allow_undeclared_parameters = false ∧
      (∀ q ∈ [{ name := "a", value := ParamValue.intV 5, descriptor := {} }],
        sampleState.has_parameter (Parameter.name q) = true ∧
          Parameter.type_ q ≠ PType.NOT_SET) ∧
      (([{ name := "a", value := ParamValue.intV 5, descriptor := {} }].map
          Parameter.name)).Nodup ∧
      sampleState.has_parameter
        (Parameter.name { name := "b", value := ParamValue.intV 6, descriptor := {} })
        = false) ∧
    ((sampleState.set_parameters none
        ([{ name := "a", value := ParamValue.intV 5, descriptor := {} }]
          ++ { name := "b", value := ParamValue.intV 6, descriptor := {} } :: [])).res
        = .error (.notDeclaredMany []) ∧
      (sampleState.set_parameters none
        ([{ name := "a", value := ParamValue.intV 5, descriptor := {} }]
          ++ { name := "b", value := ParamValue.intV 6, descriptor := {} } :: [])).state._parameters
        = [{ name := "a", value := ParamValue.intV 5, descriptor := {} }].foldl
            (fun d q => dictSet d q.name q) sampleState._parameters ∧
      (∀ q ∈ [{ name := "a", value := ParamValue.intV 5, descriptor := {} }],
        dictLookup (sampleState.set_parameters none
          ([{ name := "a", value := ParamValue.intV 5, descriptor := {} }]
            ++ { name := "b", value := ParamValue.intV 6, descriptor := {} } :: [])).state._parameters
          q.name = some q) ∧
      (sampleState.set_parameters none
        ([{ name := "a", value := ParamValue.intV 5, descriptor := {} }]
          ++ { name := "b", value := ParamValue.intV 6, descriptor := {} } :: [])).state.has_parameter
        (Parameter.name { name := "b", value := ParamValue.intV 6, descriptor := {} })
        = false) :=
  ⟨⟨by decide, by decide, by decide, by decide⟩,
    C3_per_element_check sampleState
      [{ name := "a", value := ParamValue.intV 5, descriptor := {} }]
      { name := "b", value := ParamValue.intV 6, descriptor := {} } []
      (by decide) (by decide) (by decide) (by decide)⟩

theorem go_unchecked_stops (cb : Callback) (good : List Parameter) :
    ∀ (s : NodeState) (bad : Parameter) (rest : List Parameter),
      (∀ q ∈ good, (cb [q]).successful = true ∧ q.type_ ≠ PType.NOT_SET) →
      (cb [bad]).successful = false →
      (_set_parameters_go SetterKind.unchecked true (some cb) (good ++ bad :: rest) s).res
        = .error (.invalidParameterValue bad.name bad.value) ∧
      (_set_parameters_go SetterKind.unchecked true (some cb)
          (good ++ bad :: rest) s).state._parameters
        = good.foldl (fun d q => dictSet d q.name q) s._parameters := by
  induction good with
  | nil =>
    intro s bad rest _ hbad
    have hstep := atomicRejected s (some cb) [bad] hbad
    simp only [List.nil_append, _set_parameters_go, applySetter]
    rw [if_pos (by simp [callbackResult, hstep.1, hbad])]
    exact ⟨rfl, by rw [hstep.2.1, List.foldl_nil]⟩
  | cons g gs ih =>
    intro s bad rest hgood hbad
    have hg := hgood g (List.mem_cons_self _ _)
    have hstep := unchecked_set_single s g (some cb) hg.1 hg.2
    obtain ⟨ihres, ihstate⟩ :=
      ih { s with _parameters := dictSet s._parameters g.name g } bad rest
        (fun q hq => hgood q (List.mem_cons_of_mem _ hq)) hbad
    simp only [List.cons_append, _set_parameters_go, applySetter]
    rw [if_neg (by simp [callbackResult, hstep.1, hg.1])]
    rw [hstep.2]
    constructor
    · show (_set_parameters_go SetterKind.unchecked true (some cb) (gs ++ bad :: rest)
          { s with _parameters := dictSet s._parameters g.name g }).res.map
            (fun rs => (s._set_parameters_atomically (some cb) [g]).result :: rs)
        = .error (.invalidParameterValue bad.name bad.value)
      rw [ihres]
      rfl
    · show (_set_parameters_go SetterKind.unchecked true (some cb) (gs ++ bad :: rest)
          { s with _parameters := dictSet s._parameters g.name g }).state._parameters
        = (g :: gs).foldl (fun d q => dictSet d q.name q) s._parameters
      rw [List.foldl_cons]
      exact ihstate

/-- C6: during `declare_parameters` over fresh valid names, when the
callback accepts each earlier entry but rejects a mid-sequence entry, the
call raises InvalidParameterValue at that entry; the earlier entries are
already applied in the store and stay applied (no rollback), while the
rejected entry and every later entry are not declared. -/
theorem C6_declare_partial_failure (s : NodeState) (cb : Callback)
    (validate : String → Option (String × Nat)) (ns : String)
    (goodT : List (String × ParamValue × ParameterDescriptor))
    (badT : String × ParamValue × ParameterDescriptor)
    (restT : List (String × ParamValue × ParameterDescriptor))
    (hv : ∀ t ∈ goodT ++ badT :: restT, validate (ns ++ t.1) = none)
    (habs : ∀ t ∈ goodT ++ badT :: restT, s.has_parameter (ns ++ t.1) = false)
    (hnd : (((goodT ++ badT :: restT).map (buildOne ns)).map Parameter.name).Nodup)
    (hgcb : ∀ t ∈ goodT, (cb [buildOne ns t]).successful = true)
    (hgt : ∀ t ∈ goodT, (buildOne ns t).type_ ≠ PType.NOT_SET)
    (hbcb : (cb [buildOne ns badT]).successful = false) :
    (s.declare_parameters (some cb) validate ns (goodT ++ badT :: restT)).res
      = .error (.invalidParameterValue (ns ++ badT.1) badT.2.1) ∧
    (∀ t ∈ goodT,
      dictLookup
        (s.declare_parameters (some cb) validate ns
          (goodT ++ badT :: restT)).state._parameters (ns ++ t.1)
        = some (buildOne ns t)) ∧
    (s.declare_parameters (some cb) validate ns
        (goodT ++ badT :: restT)).state.has_parameter (ns ++ badT.1) = false ∧
    (∀ t ∈ restT,
      (s.declare_parameters (some cb) validate ns
          (goodT ++ badT :: restT)).state.has_parameter (ns ++ t.1) = false) := by
  have hbuild := buildParameterList_ok validate ns (goodT ++ badT :: restT) hv
  have hchecks : ∀ b ∈ ((goodT ++ badT :: restT).map (buildOne ns)).map
      (fun p => s.has_parameter p.name), b = false := by
    intro b hb
    simp only [List.mem_map] at hb
    obtain ⟨p, hp, hpb⟩ := hb
    obtain ⟨t, ht, hpt⟩ := hp
    subst hpt
    subst hpb
    exact habs t ht
  have hmap : (goodT ++ badT :: restT).map (buildOne ns)
      = goodT.map (buildOne ns) ++ buildOne ns badT :: restT.map (buildOne ns) := by
    simp
  have hgood' : ∀ q ∈ goodT.map (buildOne ns),
      (cb [q]).successful = true ∧ q.type_ ≠ PType.NOT_SET := by
    intro q hq
    obtain ⟨t, ht, hqt⟩ := List.mem_map.1 hq
    subst hqt
    exact ⟨hgcb t ht, hgt t ht⟩
  obtain ⟨gres, gstate⟩ :=
    go_unchecked_stops cb (goodT.map (buildOne ns)) s (buildOne ns badT)
      (restT.map (buildOne ns)) hgood' hbcb
  have hnd2 : (((goodT.map (buildOne ns)).map Parameter.name)
      ++ (buildOne ns badT).name :: (restT.map (buildOne ns)).map Parameter.name).Nodup := by
    rw [hmap] at hnd
    simpa using hnd
  obtain ⟨hndg, hndr, hdis⟩ := List.nodup_append.1 hnd2
  unfold NodeState.declare_parameters
  rw [hbuild]
  dsimp only
  rw [anyThenList_all_false hchecks]
  rw [if_neg (by simp)]
  rw [hmap, gres]
  dsimp only
  refine ⟨rfl, ?_, ?_, ?_⟩
  · intro t ht
    show dictLookup (_set_parameters_go SetterKind.unchecked true (some cb)
        (goodT.map (buildOne ns) ++ buildOne ns badT :: restT.map (buildOne ns))
        s).state._parameters (ns ++ t.1)
      = some (buildOne ns t)
    rw [gstate]
    exact foldl_dictSet_lookup (goodT.map (buildOne ns)) s._parameters (buildOne ns t)
      (List.mem_map_of_mem (buildOne ns) ht) hndg
  · show (dictLookup (_set_parameters_go SetterKind.unchecked true (some cb)
        (goodT.map (buildOne ns) ++ buildOne ns badT :: restT.map (buildOne ns))
        s).state._parameters (ns ++ badT.1)).isSome = false
    rw [gstate]
    have hne : ∀ q ∈ goodT.map (buildOne ns), q.name ≠ ns ++ badT.1 := by
      intro q hq he
      exact hdis (List.mem_map_of_mem Parameter.name hq)
        (he ▸ List.mem_cons_self _ _)
    rw [foldl_dictSet_untouched (goodT.map (buildOne ns)) s._parameters (ns ++ badT.1) hne]
    exact habs badT (List.mem_append_right _ (List.mem_cons_self _ _))
  · intro t ht
    show (dictLookup (_set_parameters_go SetterKind.unchecked true (some cb)
        (goodT.map (buildOne ns) ++ buildOne ns badT :: restT.map (buildOne ns))
        s).state._parameters (ns ++ t.1)).isSome = false
    rw [gstate]
    have hne : ∀ q ∈ goodT.map (buildOne ns), q.name ≠ ns ++ t.1 := by
      intro q hq he
      refine hdis (List.mem_map_of_mem Parameter.name hq) ?_
      refine he ▸ List.mem_cons_of_mem _ ?_
      exact List.mem_map_of_mem Parameter.name (List.mem_map_of_mem (buildOne ns) ht)
    rw [foldl_dictSet_untouched (goodT.map (buildOne ns)) s._parameters (ns ++ t.1) hne]
    exact habs t (List.mem_append_right _ (List.mem_cons_of_mem _ ht))

/-- Concrete callback rejecting exactly batches that mention the name
`x`. -/
def midRejectCb : Callback := fun pl =>
  if pl.any (fun p => decide (p.name = ("x"))) then
    { successful := false, reason := "bad" }
  else
    { successful := true, reason := "" }

/-- Concrete always-accepting name validator. -/
def noValidate : String → Option (String × Nat) := fun _ => none

/-- Concrete declare tuples for the C6 witness: accepted prefix entry. -/
def goodTs : List (String × ParamValue × ParameterDescriptor) :=
  [(("g"), ParamValue.intV 1, {})]

/-- Concrete declare tuple rejected by `midRejectCb`. -/
def badTpl : String × ParamValue × ParameterDescriptor :=
  (("x"), ParamValue.intV 2, {})

/-- Concrete declare tuples after the rejected entry. -/
def restTs : List (String × ParamValue × ParameterDescriptor) :=
  [(("r"), ParamValue.intV 3, {})]

/-- Witness for C6 at a concrete declare list with a mid-sequence
rejection. -/
theorem C6_declare_partial_failure_witness :
    ((∀ t ∈ goodTs ++ badTpl :: restTs, noValidate ("" ++ t.1) = none) ∧
      (∀ t ∈ goodTs ++ badTpl :: restTs, emptyState.has_parameter ("" ++ t.1) = false) ∧
      ((((goodTs ++ badTpl :: restTs).map (buildOne "")).map Parameter.name)).Nodup ∧
      (∀ t ∈ goodTs, (midRejectCb [buildOne "" t]).successful = true) ∧
      (∀ t ∈ goodTs, (buildOne "" t).type_ ≠ PType.NOT_SET) ∧
      (midRejectCb [buildOne "" badTpl]).successful = false) ∧
    ((emptyState.declare_parameters (some midRejectCb) noValidate ""
        (goodTs ++ badTpl :: restTs)).res
      = .error (.invalidParameterValue ("" ++ badTpl.1) badTpl.2.1) ∧
      (∀ t ∈ goodTs,
        dictLookup (emptyState.declare_parameters (some midRejectCb) noValidate ""
            (goodTs ++ badTpl :: restTs)).state._parameters ("" ++ t.1)
          = some (buildOne "" t)) ∧
      (emptyState.declare_parameters (some midRejectCb) noValidate ""
          (goodTs ++ badTpl :: restTs)).state.has_parameter ("" ++ badTpl.1) = false ∧
      (∀ t ∈ restTs,
        (emptyState.declare_parameters (some midRejectCb) noValidate ""
            (goodTs ++ badTpl :: restTs)).state.has_parameter ("" ++ t.1) = false)) :=
  ⟨⟨by decide, by decide, by decide, by decide, by decide, by decide⟩,
    C6_declare_partial_failure emptyState midRejectCb noValidate "" goodTs badTpl restTs
      (by decide) (by decide) (by decide) (by decide) (by decide) (by decide)⟩

/-- C7 (amended: the declared value's type is not NOT_SET): declaring a
valid fresh name with an accepting (or absent) callback succeeds, returns
the post-set value as re-read from the store, and an immediate get on the
same fully qualified name returns a parameter equal to the declared
one. -/
theorem C7_declare_then_get (s : NodeState) (cb : Option Callback)
    (validate : String → Option (String × Nat)) (ns pname : String)
    (value : ParamValue) (descriptor : ParameterDescriptor)
    (hv : validate (ns ++ pname) = none)
    (habs : s.has_parameter (ns ++ pname) = false)
    (hcb : (callbackResult cb
        [{ name := ns ++ pname, value := value, descriptor := descriptor }]).successful
      = true)
    (hts : value.ptype ≠ PType.NOT_SET) :
    (s.declare_parameters cb validate ns [(pname, value, descriptor)]).res
      = .ok [{ name := ns ++ pname, value := value, descriptor := descriptor }] ∧
    (s.declare_parameters cb validate ns
        [(pname, value, descriptor)]).state.get_parameter (ns ++ pname)
      = .ok { name := ns ++ pname, value := value, descriptor := descriptor } := by
  have hbuild := buildParameterList_ok validate ns [(pname, value, descriptor)]
    (by
      intro t ht
      rcases List.mem_singleton.1 ht with rfl
      exact hv)
  have hstep := unchecked_set_single s (buildOne ns (pname, value, descriptor)) cb hcb hts
  have hchecks : ∀ b ∈ ([(pname, value, descriptor)].map (buildOne ns)).map
      (fun p => s.has_parameter p.name), b = false := by
    intro b hb
    simp only [List.map_cons, List.map_nil, List.mem_singleton] at hb
    subst hb
    exact habs
  have hlookg : dictLookup
      (dictSet s._parameters (buildOne ns (pname, value, descriptor)).name
        (buildOne ns (pname, value, descriptor)))
      (buildOne ns (pname, value, descriptor)).name
      = some (buildOne ns (pname, value, descriptor)) := by
    rw [dictLookup_dictSet, if_pos rfl]
  have hlookn : dictLookup
      (dictSet s._parameters (buildOne ns (pname, value, descriptor)).name
        (buildOne ns (pname, value, descriptor)))
      (ns ++ pname)
      = some (buildOne ns (pname, value, descriptor)) := hlookg
  have hget : ∀ s1 : NodeState,
      s1._parameters
        = dictSet s._parameters (buildOne ns (pname, value, descriptor)).name
            (buildOne ns (pname, value, descriptor)) →
      s1.get_parameters [(buildOne ns (pname, value, descriptor)).name]
        = .ok [buildOne ns (pname, value, descriptor)] := by
    intro s1 hs1
    unfold NodeState.get_parameters NodeState.get_parameter
    rw [hs1, hlookg]
    rfl
  have hget1 : ∀ s1 : NodeState,
      s1._parameters
        = dictSet s._parameters (buildOne ns (pname, value, descriptor)).name
            (buildOne ns (pname, value, descriptor)) →
      s1.get_parameter (ns ++ pname)
        = .ok (buildOne ns (pname, value, descriptor)) := by
    intro s1 hs1
    unfold NodeState.get_parameter
    rw [hs1, hlookn]
  unfold NodeState.declare_parameters
  rw [hbuild]
  dsimp only
  rw [anyThenList_all_false hchecks]
  rw [if_neg (by simp)]
  simp only [List.map_cons, List.map_nil, _set_parameters_go, applySetter]
  rw [if_neg (by
    simp only [hstep.1, Bool.true_and, Bool.not_eq_true', Bool.not_eq_false]
    exact hcb)]
  rw [hget ((s._set_parameters_atomically cb [buildOne ns (pname, value, descriptor)]).state)
    (by rw [hstep.2])]
  refine ⟨rfl, ?_⟩
  exact hget1 ((s._set_parameters_atomically cb [buildOne ns (pname, value, descriptor)]).state)
    (by rw [hstep.2])

/-- Witness for C7 (amended) at a concrete fresh declaration. -/
theorem C7_declare_then_get_witness :
    (noValidate ("" ++ "speed") = none ∧
      emptyState.has_parameter ("" ++ "speed") = false ∧
      (callbackResult none
          [{ name := "" ++ "speed", value := ParamValue.intV 4,
             descriptor := {} }]).successful = true ∧
      (ParamValue.intV 4).ptype ≠ PType.NOT_SET) ∧
    ((emptyState.declare_parameters none noValidate ""
        [(("speed"), ParamValue.intV 4, {})]).res
      = .ok [{ name := "" ++ "speed", value := ParamValue.intV 4, descriptor := {} }] ∧
      (emptyState.declare_parameters none noValidate ""
          [(("speed"), ParamValue.intV 4, {})]).state.get_parameter ("" ++ "speed")
        = .ok { name := "" ++ "speed", value := ParamValue.intV 4, descriptor := {} }) :=
  ⟨⟨rfl, by decide, rfl, by decide⟩,
    C7_declare_then_get emptyState none noValidate "" ("speed") (ParamValue.intV 4) {}
      rfl (by decide) rfl (by decide)⟩

/-- Concrete batch for the C2 witness: delete the stored `a`, insert the
fresh `b`. -/
def sampleBatch : List Parameter :=
  [{ name := "a", value := ParamValue.notSet, descriptor := {} },
   { name := "b", value := ParamValue.intV 2, descriptor := {} }]

/-- Witness for C2 (amended) at a concrete store and batch with distinct
names. -/
theorem C2_classification_witness :
    (StoreWF sampleState._parameters ∧
      (sampleBatch.map Parameter.name).Nodup ∧
      (callbackResult none sampleBatch).successful = true) ∧
    ((sampleState._set_parameters_atomically none sampleBatch).result
        = callbackResult none sampleBatch ∧
      (sampleState._set_parameters_atomically none sampleBatch).events
        = [{ node := sampleState.fullyQualifiedPath
             new_parameters :=
               (sampleBatch.filter (fun q => isNewEntry sampleState q)).map
                 Parameter.to_parameter_msg
             changed_parameters :=
               (sampleBatch.filter (fun q => isChangedEntry sampleState q)).map
                 Parameter.to_parameter_msg
             deleted_parameters :=
               (sampleBatch.filter (fun q => isDeletedEntry sampleState q)).map
                 Parameter.to_parameter_msg
             stamp := sampleState.clock_now }] ∧
      (∀ q ∈ sampleBatch,
        dictLookup (sampleState._set_parameters_atomically none sampleBatch).state._parameters
            q.name
          = if q.type_ = PType.NOT_SET then none else some q) ∧
      (∀ n, ¬ (n ∈ (sampleBatch.filter (fun q => isDeletedEntry sampleState q)).map
                Parameter.name ∧
               n ∈ (sampleBatch.filter (fun q => isNewEntry sampleState q)).map
                Parameter.name)) ∧
      (∀ n, ¬ (n ∈ (sampleBatch.filter (fun q => isDeletedEntry sampleState q)).map
                Parameter.name ∧
               n ∈ (sampleBatch.filter (fun q => isChangedEntry sampleState q)).map
                Parameter.name)) ∧
      (∀ n, ¬ (n ∈ (sampleBatch.filter (fun q => isNewEntry sampleState q)).map
                Parameter.name ∧
               n ∈ (sampleBatch.filter (fun q => isChangedEntry sampleState q)).map
                Parameter.name)) ∧
      (∀ n, (n ∈ (sampleBatch.filter (fun q => isDeletedEntry sampleState q)).map
                Parameter.name ∨
             n ∈ (sampleBatch.filter (fun q => isNewEntry sampleState q)).map
                Parameter.name ∨
             n ∈ (sampleBatch.filter (fun q => isChangedEntry sampleState q)).map
                Parameter.name)
        ↔ ∃ q ∈ sampleBatch, q.name = n ∧
            (q.type_ ≠ PType.NOT_SET ∨ sampleState.has_parameter q.name = true))) :=
  ⟨⟨by decide, by decide, rfl⟩,
    C2_classification sampleState none sampleBatch (by decide) (by decide) rfl⟩
